import Mathlib

/-!
Verification of the yaozarrs OME-Zarr metadata library.

This file shallowly embeds the parts of the `yaozarrs` Python package that the
spec's claims are about:

* a JSON value type (documents are JSON objects on the wire);
* the `ValidationResult` accumulator from `src/yaozarrs/_storage.py`;
* the label-count cross checks and the bioformats2raw numbered-directory
  discovery from `src/yaozarrs/v04/_storage.py`;
* the caching store wrapper `_CachedMapper` from `src/yaozarrs/_zarr.py`;
* the v0.5 document model (axes, coordinate transformations, multiscales,
  plates, wells, labels, bioformats2raw and series documents), its
  construction-time validators, its serializer (pydantic
  `model_dump_json(exclude_unset=True, by_alias=True)` semantics) and its
  parser (pydantic validation with structural union discrimination).

Python `float` fields are modelled as `ℚ` (document values come from JSON
number literals, which are finite decimals; NaN/infinity never appear on the
JSON wire).  Python `int` is `ℤ`, `NonNegativeInt` is `ℕ`.
-/

namespace Yaozarrs

/-! ## JSON values -/

/-- A JSON value.  Object fields are an ordered association list, mirroring
Python `dict` insertion order (which pydantic preserves both when parsing and
when serializing). -/
inductive Json where
  | null
  | bool (b : Bool)
  | num (q : ℚ)
  | str (s : String)
  | arr (elems : List Json)
  | obj (fields : List (String × Json))

mutual

/-- Structural equality test for JSON values. -/
def Json.beq : Json → Json → Bool
  | .null, .null => true
  | .bool a, .bool b => a == b
  | .num a, .num b => a == b
  | .str a, .str b => a == b
  | .arr a, .arr b => Json.beqArr a b
  | .obj a, .obj b => Json.beqObj a b
  | _, _ => false

/-- Elementwise equality test for JSON arrays. -/
def Json.beqArr : List Json → List Json → Bool
  | [], [] => true
  | x :: xs, y :: ys => Json.beq x y && Json.beqArr xs ys
  | _, _ => false

/-- Elementwise equality test for JSON object field lists. -/
def Json.beqObj : List (String × Json) → List (String × Json) → Bool
  | [], [] => true
  | (k, v) :: xs, (k2, v2) :: ys => k == k2 && Json.beq v v2 && Json.beqObj xs ys
  | _, _ => false

end

mutual

theorem Json.beq_iff : ∀ a b : Json, Json.beq a b = true ↔ a = b
  | .null, .null => by simp [Json.beq]
  | .null, .bool _ | .null, .num _ | .null, .str _ | .null, .arr _ | .null, .obj _ =>
    by simp [Json.beq]
  | .bool _, .null | .bool _, .num _ | .bool _, .str _ | .bool _, .arr _ | .bool _, .obj _ =>
    by simp [Json.beq]
  | .num _, .null | .num _, .bool _ | .num _, .str _ | .num _, .arr _ | .num _, .obj _ =>
    by simp [Json.beq]
  | .str _, .null | .str _, .bool _ | .str _, .num _ | .str _, .arr _ | .str _, .obj _ =>
    by simp [Json.beq]
  | .arr _, .null | .arr _, .bool _ | .arr _, .num _ | .arr _, .str _ | .arr _, .obj _ =>
    by simp [Json.beq]
  | .obj _, .null | .obj _, .bool _ | .obj _, .num _ | .obj _, .str _ | .obj _, .arr _ =>
    by simp [Json.beq]
  | .bool a, .bool b => by simp [Json.beq]
  | .num a, .num b => by simp [Json.beq]
  | .str a, .str b => by simp [Json.beq]
  | .arr a, .arr b => by
    simp only [Json.beq, Json.beqArr_iff a b, Json.arr.injEq]
  | .obj a, .obj b => by
    simp only [Json.beq, Json.beqObj_iff a b, Json.obj.injEq]

theorem Json.beqArr_iff : ∀ a b : List Json, Json.beqArr a b = true ↔ a = b
  | [], [] => by simp [Json.beqArr]
  | [], _ :: _ => by simp [Json.beqArr]
  | _ :: _, [] => by simp [Json.beqArr]
  | x :: xs, y :: ys => by
    simp only [Json.beqArr, Bool.and_eq_true, Json.beq_iff x y,
      Json.beqArr_iff xs ys, List.cons.injEq]

theorem Json.beqObj_iff : ∀ a b : List (String × Json), Json.beqObj a b = true ↔ a = b
  | [], [] => by simp [Json.beqObj]
  | [], _ :: _ => by simp [Json.beqObj]
  | _ :: _, [] => by simp [Json.beqObj]
  | (k, v) :: xs, (k2, v2) :: ys => by
    simp only [Json.beqObj, Bool.and_eq_true, Json.beq_iff v v2,
      Json.beqObj_iff xs ys, List.cons.injEq, beq_iff_eq, Prod.mk.injEq, and_assoc]

end

instance : DecidableEq Json := fun a b => decidable_of_iff _ (Json.beq_iff a b)

/-! ## `ValidationResult` (`src/yaozarrs/_storage.py`)

`StorageErrorType` is the closed enumeration of storage error kinds; `str()`
of a member is its name. -/

/-- The `StorageErrorType` enum from `_storage.py`. -/
inductive StorageErrorType where
  | bf2raw_invalid_image
  | bf2raw_no_images
  | bf2raw_path_not_group
  | dataset_dimension_mismatch
  | dataset_not_array
  | dataset_path_not_found
  | dimension_names_mismatch
  | field_image_invalid
  | field_path_not_found
  | field_path_not_group
  | label_dataset_count_mismatch
  | label_image_invalid
  | label_image_source_invalid
  | label_image_source_not_found
  | label_multiscale_count_mismatch
  | label_non_integer_dtype
  | label_path_not_found
  | label_path_not_group
  | labels_metadata_invalid
  | labels_not_group
  | series_invalid_image
  | series_path_not_found
  | series_path_not_group
  | well_invalid
  | well_path_not_found
  | well_path_not_group
  deriving DecidableEq

/-- One entry of a `loc` tuple (`tuple[int | str, ...]`). -/
inductive LocItem where
  | idx (n : ℤ)
  | key (s : String)
  deriving DecidableEq

/-- The `ErrorDetails` TypedDict: error kind, location tuple, message and
optional context. -/
structure ErrorDetails where
  type : StorageErrorType
  loc : List LocItem
  msg : String
  ctx : Option Json
  deriving DecidableEq

/-- `ValidationResult`: accumulated errors and warnings. -/
structure ValidationResult where
  errors : List ErrorDetails
  warnings : List ErrorDetails
  deriving DecidableEq

/-- The default-constructed (empty) `ValidationResult`. -/
def ValidationResult.empty : ValidationResult := ⟨[], []⟩

/-- `ValidationResult.merge`: a new result with both members concatenated. -/
def ValidationResult.merge (r o : ValidationResult) : ValidationResult :=
  ⟨r.errors ++ o.errors, r.warnings ++ o.warnings⟩

/-- `ValidationResult.add_error`: append one error. -/
def ValidationResult.add_error (r : ValidationResult) (t : StorageErrorType)
    (loc : List LocItem) (msg : String) (ctx : Option Json := none) : ValidationResult :=
  { r with errors := r.errors ++ [⟨t, loc, msg, ctx⟩] }

/-- `ValidationResult.add_warning`: append one warning. -/
def ValidationResult.add_warning (r : ValidationResult) (t : StorageErrorType)
    (loc : List LocItem) (msg : String) (ctx : Option Json := none) : ValidationResult :=
  { r with warnings := r.warnings ++ [⟨t, loc, msg, ctx⟩] }

/-- `ValidationResult.is_valid`: true when no errors were found. -/
def ValidationResult.is_valid (r : ValidationResult) : Bool :=
  r.errors.length == 0

/-- One mutation of a `ValidationResult`, as performed by the storage
validators: adding an error, adding a warning, or merging another result. -/
inductive VROp where
  | addError (t : StorageErrorType) (loc : List LocItem) (msg : String) (ctx : Option Json)
  | addWarning (t : StorageErrorType) (loc : List LocItem) (msg : String) (ctx : Option Json)
  | mergeWith (o : ValidationResult)

/-- Apply one mutation. -/
def VROp.apply (r : ValidationResult) : VROp → ValidationResult
  | .addError t loc msg ctx => r.add_error t loc msg ctx
  | .addWarning t loc msg ctx => r.add_warning t loc msg ctx
  | .mergeWith o => r.merge o

/-- The result reached from the empty result by a sequence of mutations. -/
def runVROps (ops : List VROp) : ValidationResult :=
  ops.foldl VROp.apply ValidationResult.empty

/-- C7: for every `ValidationResult` reachable from the empty result through
any sequence of `add_error`, `add_warning` and `merge` operations, `is_valid`
holds iff the errors list is empty, and `add_warning` never changes
`is_valid`. -/
theorem validationResult_is_valid_iff_no_errors (ops : List VROp) :
    ((runVROps ops).is_valid = true ↔ (runVROps ops).errors = []) ∧
      (∀ (t : StorageErrorType) (loc : List LocItem) (msg : String) (ctx : Option Json),
        ((runVROps ops).add_warning t loc msg ctx).is_valid = (runVROps ops).is_valid) := by
  constructor
  · simp [ValidationResult.is_valid, List.length_eq_zero]
  · intro t loc msg ctx
    simp [ValidationResult.is_valid, ValidationResult.add_warning]

/-! ## Label count cross-checks (`StorageValidatorV04.visit_labels_group`,
`src/yaozarrs/v04/_storage.py` lines 269-306)

For one label image under a parent image, the validator compares the label
image's multiscale count with the parent's (`if n_lbl_ms != n_img_ms`) and,
for each zipped multiscale pair, the dataset counts
(`if n_lbl_ds < n_img_ds`).  We model the two count lists as the per-
multiscale dataset counts of the label image (`lblCounts`) and of the parent
image (`imgCounts`); the multiscale counts are the list lengths. -/

/-- The `label_dataset_count_mismatch` error produced at zipped index `p.1`
for label dataset count `p.2.1` and parent dataset count `p.2.2`. -/
def labelDsDetail (label_loc : List LocItem) (label_path : String)
    (p : ℕ × ℕ × ℕ) : ErrorDetails :=
  ⟨.label_dataset_count_mismatch,
    label_loc ++ [LocItem.key "multiscales", LocItem.idx (p.1 : ℤ)],
    "Label image '" ++ label_path ++ "' multiscale index " ++ toString p.1 ++
      " has " ++ toString p.2.1 ++ " datasets, but parent image multiscale " ++
      "index " ++ toString p.1 ++ " has " ++ toString p.2.2,
    some (Json.obj [("label_path", .str label_path),
      ("multiscale_index", .num (p.1 : ℚ)),
      ("label_datasets", .num (p.2.1 : ℚ)),
      ("parent_datasets", .num (p.2.2 : ℚ))])⟩

/-- The `label_multiscale_count_mismatch` error for label multiscale count
`nLbl` and parent multiscale count `nImg`. -/
def labelMsDetail (label_loc : List LocItem) (label_path : String)
    (nLbl nImg : ℕ) : ErrorDetails :=
  ⟨.label_multiscale_count_mismatch, label_loc,
    "Label image '" ++ label_path ++ "' has " ++ toString nLbl ++
      " multiscales, but parent image has " ++ toString nImg,
    some (Json.obj [("label_path", .str label_path),
      ("label_multiscales", .num (nLbl : ℚ)),
      ("parent_multiscales", .num (nImg : ℚ))])⟩

/-- The count checks of `visit_labels_group` for one label image:
`lblCounts` / `imgCounts` are the per-multiscale dataset counts of the label
image and of the parent image.  First the multiscale counts (list lengths)
are compared with `!=`; then, for each `enumerate(zip(...))` pair, the
dataset counts are compared with `<`.  Errors are added to `r` and the loop
continues. -/
def visit_labels_count_checks (r : ValidationResult) (label_loc : List LocItem)
    (label_path : String) (lblCounts imgCounts : List ℕ) : ValidationResult :=
  ((lblCounts.zip imgCounts).enum).foldl
    (fun acc p =>
      if p.2.1 < p.2.2 then
        acc.add_error .label_dataset_count_mismatch
          (labelDsDetail label_loc label_path p).loc
          (labelDsDetail label_loc label_path p).msg
          (labelDsDetail label_loc label_path p).ctx
      else acc)
    (if lblCounts.length ≠ imgCounts.length then
      r.add_error .label_multiscale_count_mismatch label_loc
        (labelMsDetail label_loc label_path lblCounts.length imgCounts.length).msg
        (labelMsDetail label_loc label_path lblCounts.length imgCounts.length).ctx
    else r)

theorem foldl_dsCheck_errors (label_loc : List LocItem) (label_path : String)
    (xs : List (ℕ × ℕ × ℕ)) (r : ValidationResult) :
    (xs.foldl
      (fun acc p =>
        if p.2.1 < p.2.2 then
          acc.add_error .label_dataset_count_mismatch
            (labelDsDetail label_loc label_path p).loc
            (labelDsDetail label_loc label_path p).msg
            (labelDsDetail label_loc label_path p).ctx
        else acc)
      r).errors
    = r.errors ++
        xs.filterMap (fun p =>
          if p.2.1 < p.2.2 then some (labelDsDetail label_loc label_path p) else none) := by
  induction xs generalizing r with
  | nil => simp
  | cons x xs ih =>
    rw [List.foldl_cons]
    by_cases hx : x.2.1 < x.2.2
    · rw [if_pos hx, ih]
      simp [ValidationResult.add_error, labelDsDetail, hx]
    · rw [if_neg hx, ih]
      simp [hx]

/-- C6 counterexample: a label image with 2 multiscales (one dataset each)
under a parent image with 1 multiscale (one dataset).  The label image's
multiscale count (2) is greater than or equal to the parent's (1), and every
zipped dataset count is equal, yet the count checks record a
`label_multiscale_count_mismatch` error — the code requires multiscale
counts to be *equal*, not merely at least the parent's. -/
theorem visit_labels_count_checks_ge_not_enough :
    ((visit_labels_count_checks ValidationResult.empty [] "cells" [1, 1] [1]).errors.map
        ErrorDetails.type)
      = [.label_multiscale_count_mismatch] ∧ 1 ≤ [1, 1].length := by
  constructor
  · rfl
  · decide

/-- C6 amended: during the count checks of `visit_labels_group`, no error is
recorded iff the label image's multiscale count *equals* the parent's and
each zipped per-multiscale dataset count of the label image is at least the
parent's; moreover every zipped pair with a smaller label dataset count
records its `label_dataset_count_mismatch` error even when the multiscale
counts already mismatched (validation continues rather than aborting). -/
theorem visit_labels_count_checks_characterization (r : ValidationResult)
    (label_loc : List LocItem) (label_path : String) (lblCounts imgCounts : List ℕ) :
    ((visit_labels_count_checks r label_loc label_path lblCounts imgCounts).errors = r.errors ↔
      (lblCounts.length = imgCounts.length ∧
        ∀ q ∈ lblCounts.zip imgCounts, q.2 ≤ q.1)) ∧
    (∀ i : ℕ, ∀ hi : i < (lblCounts.zip imgCounts).length,
      ((lblCounts.zip imgCounts)[i].1 < (lblCounts.zip imgCounts)[i].2) →
        labelDsDetail label_loc label_path (i, (lblCounts.zip imgCounts)[i]) ∈
          (visit_labels_count_checks r label_loc label_path lblCounts imgCounts).errors) := by
  have herr : (visit_labels_count_checks r label_loc label_path lblCounts imgCounts).errors
      = r.errors ++
        (if lblCounts.length ≠ imgCounts.length then
          [labelMsDetail label_loc label_path lblCounts.length imgCounts.length] else []) ++
        ((lblCounts.zip imgCounts).enum).filterMap (fun p =>
          if p.2.1 < p.2.2 then some (labelDsDetail label_loc label_path p) else none) := by
    unfold visit_labels_count_checks
    rw [foldl_dsCheck_errors]
    by_cases h : lblCounts.length = imgCounts.length
    · simp [h]
    · simp [h, ValidationResult.add_error, labelMsDetail]
  have henumMem : ∀ i : ℕ, ∀ hi : i < (lblCounts.zip imgCounts).length,
      (i, (lblCounts.zip imgCounts)[i]) ∈ (lblCounts.zip imgCounts).enum := by
    intro i hi
    have hil : i < (lblCounts.zip imgCounts).enum.length := by
      simpa using hi
    have := List.getElem_enum (l := lblCounts.zip imgCounts) (i := i) (h := hil)
    exact this ▸ List.getElem_mem hil
  have hsome : ∀ i : ℕ, ∀ hi : i < (lblCounts.zip imgCounts).length,
      (lblCounts.zip imgCounts)[i].1 < (lblCounts.zip imgCounts)[i].2 →
      labelDsDetail label_loc label_path (i, (lblCounts.zip imgCounts)[i]) ∈
        ((lblCounts.zip imgCounts).enum).filterMap (fun p =>
          if p.2.1 < p.2.2 then some (labelDsDetail label_loc label_path p) else none) := by
    intro i hi hlt
    refine List.mem_filterMap.mpr ⟨(i, (lblCounts.zip imgCounts)[i]), henumMem i hi, ?_⟩
    simp only
    rw [if_pos hlt]
  constructor
  · rw [herr, List.append_assoc, List.append_right_eq_self, List.append_eq_nil]
    constructor
    · rintro ⟨hms, hfm⟩
      have hlen : lblCounts.length = imgCounts.length := by
        by_contra hne
        simp [hne] at hms
      refine ⟨hlen, ?_⟩
      intro q hq
      obtain ⟨i, hi, hq'⟩ := List.mem_iff_getElem.mp hq
      by_contra hle
      push_neg at hle
      have hlt : (lblCounts.zip imgCounts)[i].1 < (lblCounts.zip imgCounts)[i].2 := by
        rw [hq']; omega
      have hmem := hsome i hi hlt
      rw [hfm] at hmem
      simp at hmem
    · rintro ⟨hlen, hall⟩
      refine ⟨by simp [hlen], ?_⟩
      rw [List.filterMap_eq_nil_iff]
      intro p hp
      obtain ⟨hip, hpe⟩ := List.mem_enum hp
      have hq : p.2 ∈ lblCounts.zip imgCounts := by
        rw [hpe]; exact List.getElem_mem hip
      have := hall p.2 hq
      have hnlt : ¬ p.2.1 < p.2.2 := by omega
      simp [hnlt]
  · intro i hi hlt
    rw [herr]
    exact List.mem_append.mpr (Or.inr (hsome i hi hlt))

/-- C6 witness: applying the characterization at concrete inputs — with
equal counts no error is recorded, and with a smaller zipped dataset count
the `label_dataset_count_mismatch` error is present. -/
theorem visit_labels_count_checks_witness :
    (visit_labels_count_checks ValidationResult.empty [] "w" [1] [1]).errors = [] ∧
      labelDsDetail [] "w" (0, (0, 1)) ∈
        (visit_labels_count_checks ValidationResult.empty [] "w" [0] [1]).errors := by
  constructor
  · exact (visit_labels_count_checks_characterization ValidationResult.empty [] "w"
      [1] [1]).1.mpr ⟨rfl, by decide⟩
  · exact (visit_labels_count_checks_characterization ValidationResult.empty [] "w"
      [0] [1]).2 0 (by decide) (by decide)

/-! ## Bioformats2raw numbered-directory discovery
(`StorageValidatorV04.visit_bioformats2raw`, `src/yaozarrs/v04/_storage.py`
lines 552-570)

In the branch where there is no OME subgroup carrying valid `Series`
metadata, the validator runs

```python
numbered_paths = []
for i in range(1000):
    if str(i) not in zarr_group:
        break
    numbered_paths.append(str(i))
```

and reports `bf2raw_no_images` when the list is empty, otherwise prefetches
and validates each numbered directory.  Group membership of the child name
`str(i)` is modelled by the predicate `present`. -/

/-- The probing loop: starting at index `i` with `fuel` iterations left,
collect consecutive present indices and stop at the first absent one. -/
def probeFrom (present : ℕ → Bool) : ℕ → ℕ → List ℕ
  | 0, _ => []
  | fuel + 1, i => if present i then i :: probeFrom present fuel (i + 1) else []

/-- `numbered_paths` as indices: probe indices 0, 1, 2, … and stop at the
first absent index, probing at most 1000 indices (`range(1000)`). -/
def discover_numbered (present : ℕ → Bool) : List ℕ :=
  probeFrom present 1000 0

/-- Outcome of `visit_bioformats2raw`'s numbered-directory branch: the
accumulated result and the list of child paths that get visited. -/
structure Bf2RawVisit where
  result : ValidationResult
  visited : List String

/-- The numbered-directory branch of `visit_bioformats2raw`.  The per-child
body (group check, image-metadata validation and recursion, lines 571-608)
is abstracted as `visitChild`, which returns the `ValidationResult` merged
for one numbered child. -/
def visit_bioformats2raw_numbered (present : ℕ → Bool)
    (visitChild : String → ValidationResult) (r : ValidationResult)
    (loc : List LocItem) : Bf2RawVisit :=
  let numbered_paths := (discover_numbered present).map (fun i => toString i)
  if numbered_paths.isEmpty then
    ⟨r.add_error .bf2raw_no_images loc
      "Bioformats2raw group contains no numbered image directories", []⟩
  else
    ⟨numbered_paths.foldl (fun acc p => acc.merge (visitChild p)) r, numbered_paths⟩

theorem mem_probeFrom (present : ℕ → Bool) :
    ∀ (fuel i k : ℕ), k ∈ probeFrom present fuel i ↔
      (i ≤ k ∧ k < i + fuel ∧ ∀ j, i ≤ j → j ≤ k → present j = true) := by
  intro fuel
  induction fuel with
  | zero => intro i k; simp [probeFrom]; omega
  | succ fuel ih =>
    intro i k
    by_cases hp : present i = true
    · rw [probeFrom, if_pos hp]
      simp only [List.mem_cons, ih (i + 1) k]
      constructor
      · rintro (rfl | ⟨h1, h2, h3⟩)
        · refine ⟨le_refl _, by omega, fun j hj hj' => ?_⟩
          have hje : j = k := by omega
          rwa [hje]
        · refine ⟨by omega, by omega, fun j hj hj' => ?_⟩
          rcases Nat.eq_or_lt_of_le hj with rfl | hlt
          · exact hp
          · exact h3 j hlt hj'
      · rintro ⟨h1, h2, h3⟩
        rcases Nat.eq_or_lt_of_le h1 with rfl | hlt
        · exact Or.inl rfl
        · exact Or.inr ⟨hlt, by omega, fun j hj hj' => h3 j (by omega) hj'⟩
    · rw [probeFrom, if_neg hp]
      simp only [List.not_mem_nil, false_iff, not_and]
      intro h1 h2 h3
      exact hp (h3 i (le_refl i) h1)

/-- C10: with no OME series metadata, the bioformats2raw validator discovers
image directories by probing child names "0", "1", "2", … in order, stopping
at the first absent index and probing only indices 0 through 999; exactly
the discovered children are visited, so a numbered child whose predecessor
index is absent is never visited; and when index 0 itself is absent the
result records a `bf2raw_no_images` error. -/
theorem visit_bioformats2raw_numbered_discovery (present : ℕ → Bool)
    (visitChild : String → ValidationResult) (r : ValidationResult)
    (loc : List LocItem) :
    (∀ k : ℕ, k ∈ discover_numbered present ↔
      (k < 1000 ∧ ∀ j ≤ k, present j = true)) ∧
    (∀ k : ℕ, 0 < k → present (k - 1) = false → k ∉ discover_numbered present) ∧
    ((visit_bioformats2raw_numbered present visitChild r loc).visited =
      (discover_numbered present).map (fun i => toString i)) ∧
    (present 0 = false →
      (visit_bioformats2raw_numbered present visitChild r loc).result.errors =
        r.errors ++ [⟨.bf2raw_no_images, loc,
          "Bioformats2raw group contains no numbered image directories", none⟩]) := by
  have hmem : ∀ k : ℕ, k ∈ discover_numbered present ↔
      (k < 1000 ∧ ∀ j ≤ k, present j = true) := by
    intro k
    rw [discover_numbered, mem_probeFrom]
    constructor
    · rintro ⟨_, h2, h3⟩
      exact ⟨by omega, fun j hj => h3 j (Nat.zero_le j) hj⟩
    · rintro ⟨h1, h2⟩
      exact ⟨Nat.zero_le k, by omega, fun j _ hj => h2 j hj⟩
  refine ⟨hmem, ?_, ?_, ?_⟩
  · intro k hk hpred hmem'
    have := (hmem k).mp hmem' |>.2 (k - 1) (by omega)
    rw [hpred] at this
    exact Bool.false_ne_true this
  · unfold visit_bioformats2raw_numbered
    by_cases h : ((discover_numbered present).map (fun i => toString i)).isEmpty
    · rw [if_pos h]
      have := List.isEmpty_iff.mp h
      simp [List.map_eq_nil_iff] at this
      simp [this]
    · rw [if_neg h]
  · intro h0
    have hnil : discover_numbered present = [] := by
      unfold discover_numbered
      rw [probeFrom, if_neg (by simp [h0])]
    unfold visit_bioformats2raw_numbered
    rw [hnil]
    simp [ValidationResult.add_error]

/-- C10 witness: applying the discovery theorem at concrete membership
predicates — with child "1" absent but "2" present, index 2 is never
visited; with no children at all, the `bf2raw_no_images` error is recorded. -/
theorem visit_bioformats2raw_numbered_witness :
    (2 ∉ discover_numbered (fun n => decide (n ≠ 1))) ∧
    ((visit_bioformats2raw_numbered (fun _ => false) (fun _ => ValidationResult.empty)
        ValidationResult.empty []).result.errors =
      [⟨.bf2raw_no_images, [],
        "Bioformats2raw group contains no numbered image directories", none⟩]) := by
  constructor
  · exact (visit_bioformats2raw_numbered_discovery (fun n => decide (n ≠ 1))
      (fun _ => ValidationResult.empty) ValidationResult.empty []).2.1 2
      (by decide) (by decide)
  · exact (visit_bioformats2raw_numbered_discovery (fun _ => false)
      (fun _ => ValidationResult.empty) ValidationResult.empty []).2.2.2 rfl

/-! ## `_CachedMapper` (`src/yaozarrs/_zarr.py` lines 242-360)

The caching wrapper over an `FSMap`.  The underlying store is modelled as an
unchanging partial map `Store` (bytes as `String`); `fsmap.get(key, default)`
returns the bytes or the default, and
`fsmap.getitems(keys, on_error="return")` returns, per key, the bytes or a
`KeyError(key)` exception object.  The batch-fetch `try/except` fallback
(which only triggers when the underlying `getitems` call itself throws) is
not modelled: the underlying store here never throws.  The cache is an
association list read through `List.lookup`; `dict` insertion is modelled by
prepending, which yields the same lookup results. -/

/-- A value stored in the `_CachedMapper._cache` dict: raw bytes, a cached
`None` ("not found" from a plain `get`), or a cached exception object (a
`KeyError(key)` from a batch fetch of a missing key). -/
inductive CVal where
  | val (b : String)
  | noneVal
  | exc (key : String)
  deriving DecidableEq

/-- The unchanging underlying store. -/
abbrev Store := String → Option String

/-- The cache contents. -/
abbrev Cache := List (String × CVal)

/-- What `self._fsmap.get(key, default)` returns, as a cache value. -/
def fetchOne (u : Store) (k : String) (dflt : Option String) : CVal :=
  match u k with
  | some b => .val b
  | none =>
    match dflt with
    | some d => .val d
    | none => .noneVal

/-- Answer of one mapper operation: `get` returns bytes-or-None or raises a
cached exception; `__contains__` returns a Bool; `getitems` returns the
result dict (values are bytes or exception objects). -/
inductive MapperAns where
  | bytesAns (b : Option String)
  | raisedAns (key : String)
  | boolAns (b : Bool)
  | itemsAns (items : List (String × CVal))
  deriving DecidableEq

/-- Result of one mapper operation: the answer, the new cache, and the keys
that were fetched from the underlying store. -/
structure StepResult where
  ans : MapperAns
  cache : Cache
  queried : List String

/-- `_CachedMapper.get`: fetch and cache on a miss (caching the default when
the key is missing and a default was supplied); raise if the cached value is
an exception; otherwise return the cached value. -/
def CachedMapper.get (u : Store) (c : Cache) (k : String) (dflt : Option String) :
    StepResult :=
  match c.lookup k with
  | some (.val b) => ⟨.bytesAns (some b), c, []⟩
  | some .noneVal => ⟨.bytesAns none, c, []⟩
  | some (.exc e) => ⟨.raisedAns e, c, []⟩
  | none =>
    match fetchOne u k dflt with
    | .val b => ⟨.bytesAns (some b), (k, CVal.val b) :: c, [k]⟩
    | .noneVal => ⟨.bytesAns none, (k, CVal.noneVal) :: c, [k]⟩
    | .exc e => ⟨.raisedAns e, (k, CVal.exc e) :: c, [k]⟩

/-- `_CachedMapper.__contains__`: fetch and cache on a miss (no default);
true iff the value is neither an exception nor `None`. -/
def CachedMapper.containsKey (u : Store) (c : Cache) (k : String) : StepResult :=
  match c.lookup k with
  | some (.val _) => ⟨.boolAns true, c, []⟩
  | some .noneVal => ⟨.boolAns false, c, []⟩
  | some (.exc _) => ⟨.boolAns false, c, []⟩
  | none =>
    match fetchOne u k none with
    | .val b => ⟨.boolAns true, (k, CVal.val b) :: c, [k]⟩
    | .noneVal => ⟨.boolAns false, (k, CVal.noneVal) :: c, [k]⟩
    | .exc e => ⟨.boolAns false, (k, CVal.exc e) :: c, [k]⟩

/-- `_CachedMapper.getitems`: batch fetch the uncached keys with
`on_error="return"` (missing keys come back as `KeyError` objects), update
the cache, then return every requested key whose cached value is not `None`
(bytes and exception objects alike). -/
def CachedMapper.getitems (u : Store) (c : Cache) (keys : List String) : StepResult :=
  let uncached := keys.filter (fun k => (c.lookup k).isNone)
  let fetched := uncached.map (fun k =>
    (k, match u k with
        | some b => CVal.val b
        | none => CVal.exc k))
  let c' := fetched ++ c
  ⟨.itemsAns (keys.filterMap (fun k =>
      match c'.lookup k with
      | some (.val b) => some (k, CVal.val b)
      | some (.exc e) => some (k, CVal.exc e)
      | _ => none)),
    c', uncached⟩

/-- One operation against a `_CachedMapper`. -/
inductive MapperOp where
  | get (key : String) (dflt : Option String)
  | containsKey (key : String)
  | getitems (keys : List String)

/-- Run one operation. -/
def MapperOp.step (u : Store) (c : Cache) : MapperOp → StepResult
  | .get k dflt => CachedMapper.get u c k dflt
  | .containsKey k => CachedMapper.containsKey u c k
  | .getitems keys => CachedMapper.getitems u c keys

/-- The cache after a sequence of operations. -/
def runMapper (u : Store) (c : Cache) : List MapperOp → Cache
  | [] => c
  | op :: ops => runMapper u (MapperOp.step u c op).cache ops

/-- Consistency of one cache entry with the underlying store.  An exception
entry is always the `KeyError` of its own key and records a missing key. -/
def CVal.consistent (u : Store) (k : String) : CVal → Prop
  | .val b => u k = some b
  | .noneVal => u k = none
  | .exc e => u k = none ∧ e = k

/-- Every cache entry is consistent with the underlying store. -/
def GoodCache (u : Store) (c : Cache) : Prop :=
  ∀ k v, c.lookup k = some v → CVal.consistent u k v

/-- No `get` in the sequence passes an explicit default (every caller in the
repository uses the one-argument form). -/
def NoDefaults : List MapperOp → Prop
  | [] => True
  | .get _ dflt :: ops => dflt = none ∧ NoDefaults ops
  | _ :: ops => NoDefaults ops

theorem lookup_append {α : Type} (a b : List (String × α)) (k : String) :
    (a ++ b).lookup k = ((a.lookup k).or (b.lookup k)) := by
  induction a with
  | nil => simp
  | cons x xs ih =>
    obtain ⟨xk, xv⟩ := x
    rw [List.cons_append, List.lookup_cons, List.lookup_cons]
    by_cases hk : k == xk
    · simp [hk]
    · simp only [Bool.not_eq_true] at hk
      simp [hk, ih]

theorem lookup_map_pair {α : Type} (f : String → α) (xs : List String) (k : String) :
    (xs.map (fun x => (x, f x))).lookup k = if k ∈ xs then some (f k) else none := by
  induction xs with
  | nil => simp
  | cons x xs ih =>
    rw [List.map_cons, List.lookup_cons]
    by_cases hk : k = x
    · subst hk
      simp
    · have : (k == x) = false := beq_false_of_ne hk
      simp only [this, cond_false, ih, List.mem_cons]
      by_cases hm : k ∈ xs
      · simp [hm, hk]
      · simp [hm, hk]

theorem goodCache_cons (u : Store) (c : Cache) (k : String) (v : CVal)
    (hg : GoodCache u c) (hv : CVal.consistent u k v) :
    GoodCache u ((k, v) :: c) := by
  intro k' v' hv'
  rw [List.lookup_cons] at hv'
  by_cases hk : (k' == k) = true
  · simp only [hk, cond_true, Option.some.injEq] at hv'
    have hke : k' = k := eq_of_beq hk
    subst hke
    rw [← hv']
    exact hv
  · simp only [Bool.not_eq_true] at hk
    simp only [hk, cond_false] at hv'
    exact hg k' v' hv'

/-- What a batch fetch stores for one key. -/
def batchFetch (u : Store) (k : String) : CVal :=
  match u k with
  | some b => CVal.val b
  | none => CVal.exc k

theorem goodCache_step (u : Store) (c : Cache) (op : MapperOp)
    (hg : GoodCache u c)
    (hd : ∀ k dflt, op = .get k dflt → dflt = none) :
    GoodCache u (op.step u c).cache := by
  cases op with
  | get k dflt =>
    have hdn : dflt = none := hd k dflt rfl
    subst hdn
    unfold MapperOp.step CachedMapper.get
    cases hc : c.lookup k with
    | some v => cases v <;> simpa [hc] using hg
    | none =>
      cases hu : u k with
      | some b =>
        simp only [hc, fetchOne, hu]
        exact goodCache_cons u c k _ hg hu
      | none =>
        simp only [hc, fetchOne, hu]
        exact goodCache_cons u c k _ hg hu
  | containsKey k =>
    unfold MapperOp.step CachedMapper.containsKey
    cases hc : c.lookup k with
    | some v => cases v <;> simpa [hc] using hg
    | none =>
      cases hu : u k with
      | some b =>
        simp only [hc, fetchOne, hu]
        exact goodCache_cons u c k _ hg hu
      | none =>
        simp only [hc, fetchOne, hu]
        exact goodCache_cons u c k _ hg hu
  | getitems keys =>
    show GoodCache u ((keys.filter (fun k => (c.lookup k).isNone)).map
      (fun k => (k, batchFetch u k)) ++ c)
    intro k' v' hv'
    rw [lookup_append, lookup_map_pair] at hv'
    by_cases hm : k' ∈ keys.filter (fun k => (c.lookup k).isNone)
    · simp only [hm, if_true, Option.or, Option.some.injEq] at hv'
      rw [← hv']
      unfold batchFetch
      cases hu : u k' <;> simp [CVal.consistent, hu]

    · simp only [hm, if_false, Option.or] at hv'
      exact hg k' v' hv'

theorem noDefaults_cons (op : MapperOp) (ops : List MapperOp)
    (h : NoDefaults (op :: ops)) :
    (∀ k dflt, op = .get k dflt → dflt = none) ∧ NoDefaults ops := by
  cases op with
  | get k d =>
    obtain ⟨hd, hops⟩ := h
    exact ⟨fun k' d' he => by cases he; exact hd, hops⟩
  | containsKey k => exact ⟨(fun k' d' he => nomatch he), h⟩
  | getitems keys => exact ⟨(fun k' d' he => nomatch he), h⟩

theorem goodCache_runMapper (u : Store) (ops : List MapperOp) (c : Cache)
    (hg : GoodCache u c) (h : NoDefaults ops) : GoodCache u (runMapper u c ops) := by
  induction ops generalizing c with
  | nil => exact hg
  | cons op ops ih =>
    obtain ⟨hd, hops⟩ := noDefaults_cons op ops h
    exact ih _ (goodCache_step u c op hg hd) hops

theorem containsKey_char (u : Store) (c : Cache) (k : String) (hg : GoodCache u c) :
    (CachedMapper.containsKey u c k).ans = .boolAns (u k).isSome := by
  unfold CachedMapper.containsKey
  cases hc : c.lookup k with
  | some v =>
    have hcons := hg k v hc
    cases v with
    | val b => simp [CVal.consistent] at hcons; simp [hcons]
    | noneVal => simp [CVal.consistent] at hcons; simp [hcons]
    | exc e => simp [CVal.consistent] at hcons; simp [hcons.1]
  | none =>
    cases hu : u k <;> simp [fetchOne, hu]

theorem get_char_no_exc (u : Store) (c : Cache) (k : String) (hg : GoodCache u c)
    (hne : ∀ e, c.lookup k ≠ some (.exc e)) :
    (CachedMapper.get u c k none).ans = .bytesAns (u k) := by
  unfold CachedMapper.get
  cases hc : c.lookup k with
  | some v =>
    have hcons := hg k v hc
    cases v with
    | val b => simp [CVal.consistent] at hcons; simp [hcons]
    | noneVal => simp [CVal.consistent] at hcons; simp [hcons]
    | exc e => exact absurd hc (hne e)
  | none =>
    cases hu : u k <;> simp [fetchOne, hu]

theorem get_char_exc (u : Store) (c : Cache) (k e : String) (hg : GoodCache u c)
    (he : c.lookup k = some (.exc e)) :
    (CachedMapper.get u c k none).ans = .raisedAns k ∧ u k = none := by
  have hcons := hg k _ he
  obtain ⟨hu, hek⟩ := hcons
  subst hek
  unfold CachedMapper.get
  rw [he]
  exact ⟨rfl, hu⟩

theorem getitems_char (u : Store) (c : Cache) (keys : List String)
    (hg : GoodCache u c) (k : String) (hk : k ∈ keys) :
    ∀ items, (CachedMapper.getitems u c keys).ans = .itemsAns items →
      ((∀ b, u k = some b → (k, CVal.val b) ∈ items) ∧
       (u k = none → c.lookup k = some .noneVal → k ∉ items.map Prod.fst) ∧
       (u k = none → c.lookup k ≠ some CVal.noneVal → (k, CVal.exc k) ∈ items)) := by
  intro items hitems
  set cc : Cache := (keys.filter (fun k => (c.lookup k).isNone)).map
      (fun k => (k, batchFetch u k)) ++ c with hcc
  have h0 : (CachedMapper.getitems u c keys).ans = MapperAns.itemsAns
      (keys.filterMap (fun k =>
        match cc.lookup k with
        | some (.val b) => some (k, CVal.val b)
        | some (.exc e) => some (k, CVal.exc e)
        | _ => none)) := rfl
  have heq : items = keys.filterMap (fun k =>
      match cc.lookup k with
      | some (.val b) => some (k, CVal.val b)
      | some (.exc e) => some (k, CVal.exc e)
      | _ => none) :=
    (MapperAns.itemsAns.inj (h0.symm.trans hitems)).symm
  have hlook : ∀ k₀ : String, cc.lookup k₀ =
      if k₀ ∈ keys.filter (fun k => (c.lookup k).isNone)
      then some (batchFetch u k₀) else (c.lookup k₀) := by
    intro k₀
    rw [hcc, lookup_append, lookup_map_pair]
    by_cases hm : k₀ ∈ keys.filter (fun k => (c.lookup k).isNone)
    · simp [hm, Option.or]
    · simp [hm, Option.or]
  have hfst : ∀ p ∈ items, p.1 ∈ keys ∧ (match cc.lookup p.1 with
      | some (.val b) => some (p.1, CVal.val b)
      | some (.exc e) => some (p.1, CVal.exc e)
      | _ => none) = some p := by
    intro p hp
    rw [heq] at hp
    obtain ⟨a, ha, hpa⟩ := List.mem_filterMap.mp hp
    have hp1 : p.1 = a := by
      cases hl : cc.lookup a with
      | some v =>
        cases v with
        | val b =>
          rw [hl] at hpa
          injection hpa with h2
          rw [← h2]
        | noneVal =>
          rw [hl] at hpa
          simp at hpa
        | exc e =>
          rw [hl] at hpa
          injection hpa with h2
          rw [← h2]
      | none =>
        rw [hl] at hpa
        simp at hpa
    subst hp1
    exact ⟨ha, hpa⟩
  refine ⟨?_, ?_, ?_⟩
  · intro b hub
    have hcl : cc.lookup k = some (.val b) := by
      rw [hlook]
      by_cases hm : k ∈ keys.filter (fun k₀ => (c.lookup k₀).isNone)
      · simp [hm, batchFetch, hub]
      · simp only [hm, if_false]
        have hcne : ¬ (c.lookup k).isNone := by
          intro hcn
          exact hm (List.mem_filter.mpr ⟨hk, by simpa using hcn⟩)
        cases hcl : c.lookup k with
        | none => simp [hcl] at hcne
        | some v =>
          have hcons := hg k v hcl
          cases v with
          | val b' =>
            simp only [CVal.consistent] at hcons
            rw [hub] at hcons
            cases hcons
            rfl
          | noneVal => simp [CVal.consistent, hub] at hcons
          | exc e => simp [CVal.consistent, hub] at hcons
    rw [heq]
    exact List.mem_filterMap.mpr ⟨k, hk, by rw [hcl]⟩
  · intro hun hcn hmem
    obtain ⟨p, hp, hp1⟩ := List.mem_map.mp hmem
    obtain ⟨hpk, hpeq⟩ := hfst p hp
    rw [hp1] at hpeq
    have hcl : cc.lookup k = some CVal.noneVal := by
      rw [hlook]
      have hm : k ∉ keys.filter (fun k₀ => (c.lookup k₀).isNone) := by
        intro hmm
        have := (List.mem_filter.mp hmm).2
        simp [hcn] at this
      simp [hm, hcn]
    rw [hcl] at hpeq
    simp at hpeq
  · intro hun hcn
    have hcl : cc.lookup k = some (CVal.exc k) := by
      rw [hlook]
      by_cases hm : k ∈ keys.filter (fun k₀ => (c.lookup k₀).isNone)
      · simp [hm, batchFetch, hun]
      · simp only [hm, if_false]
        have hcne : ¬ (c.lookup k).isNone := by
          intro hcnn
          exact hm (List.mem_filter.mpr ⟨hk, by simpa using hcnn⟩)
        cases hcl : c.lookup k with
        | none => simp [hcl] at hcne
        | some v =>
          have hcons := hg k v hcl
          cases v with
          | val b' => simp [CVal.consistent, hun] at hcons
          | noneVal => exact absurd hcl hcn
          | exc e =>
            obtain ⟨_, he⟩ := hcons
            rw [he]
    rw [heq]
    exact List.mem_filterMap.mpr ⟨k, hk, by rw [hcl]⟩

theorem step_queried_uncached (u : Store) (c : Cache) (op : MapperOp) :
    ∀ q ∈ (op.step u c).queried, c.lookup q = none := by
  cases op with
  | get k dflt =>
    unfold MapperOp.step CachedMapper.get
    cases hc : c.lookup k with
    | some v => cases v <;> simp only [hc] <;> intro q hq <;> cases hq
    | none =>
      cases hf : fetchOne u k dflt <;>
        · simp only [hc, hf]
          intro q hq
          have hqk : q = k := by simpa using hq
          rwa [hqk]
  | containsKey k =>
    unfold MapperOp.step CachedMapper.containsKey
    cases hc : c.lookup k with
    | some v => cases v <;> simp only [hc] <;> intro q hq <;> cases hq
    | none =>
      cases hf : fetchOne u k none <;>
        · simp only [hc, hf]
          intro q hq
          have hqk : q = k := by simpa using hq
          rwa [hqk]
  | getitems keys =>
    unfold MapperOp.step CachedMapper.getitems
    intro q hq
    simp only at hq
    have := (List.mem_filter.mp hq).2
    simpa using this

theorem step_cache_monotone (u : Store) (c : Cache) (op : MapperOp) :
    ∀ k v, c.lookup k = some v → ((op.step u c).cache).lookup k = some v := by
  intro k v hv
  cases op with
  | get k₀ dflt =>
    unfold MapperOp.step CachedMapper.get
    cases hc : c.lookup k₀ with
    | some v₀ => cases v₀ <;> simp only [hc] <;> exact hv
    | none =>
      have hkk : (k == k₀) = false := by
        by_contra hcon
        have ht : (k == k₀) = true := by simpa using hcon
        have hke : k = k₀ := eq_of_beq ht
        rw [hke, hc] at hv
        cases hv
      cases hf : fetchOne u k₀ dflt <;>
        simp only [hc, hf, List.lookup_cons, hkk, cond_false] <;> exact hv
  | containsKey k₀ =>
    unfold MapperOp.step CachedMapper.containsKey
    cases hc : c.lookup k₀ with
    | some v₀ => cases v₀ <;> simp only [hc] <;> exact hv
    | none =>
      have hkk : (k == k₀) = false := by
        by_contra hcon
        have ht : (k == k₀) = true := by simpa using hcon
        have hke : k = k₀ := eq_of_beq ht
        rw [hke, hc] at hv
        cases hv
      cases hf : fetchOne u k₀ none <;>
        simp only [hc, hf, List.lookup_cons, hkk, cond_false] <;> exact hv
  | getitems keys =>
    show (((keys.filter (fun k => (c.lookup k).isNone)).map
      (fun k => (k, batchFetch u k)) ++ c).lookup k) = some v
    rw [lookup_append, lookup_map_pair]
    have hm : k ∉ keys.filter (fun k₀ => (c.lookup k₀).isNone) := by
      intro hmm
      have := (List.mem_filter.mp hmm).2
      simp [hv] at this
    simp [hm, Option.or, hv]

/-- C9 counterexample: over the underlying store with no keys, first batch-
fetching key "m" caches a `KeyError` for it, and a subsequent `get("m")`
*raises* that cached exception rather than returning the plain store's
"not found" answer — so a subsequent `get(k)` does not return the same
answer as the plain underlying store. -/
theorem cachedMapper_batch_miss_poisons_get :
    (CachedMapper.get (fun _ => none)
        (runMapper (fun _ => none) [] [.getitems ["m"]]) "m" none).ans =
      .raisedAns "m" ∧
    (CachedMapper.get (fun _ => none)
        (runMapper (fun _ => none) [] [.getitems ["m"]]) "m" none).ans ≠
      .bytesAns ((fun (_ : String) => none) "m") := by
  constructor
  · rfl
  · intro h
    rw [show (CachedMapper.get (fun _ => none)
        (runMapper (fun _ => none) [] [.getitems ["m"]]) "m" none).ans =
      .raisedAns "m" from rfl] at h
    cases h

/-- C9 amended: every fetched key is memoized — values, "not found" results
and batch-fetch `KeyError`s alike — and a memoized key is never fetched from
the underlying store again, and the cache never changes a memoized entry.
Containment checks always agree with the plain underlying store.  `get(k)`
(called without a default, as all callers in the repository do) returns the
plain store's answer unless the key is missing and was first fetched by a
batch fetch, in which case it raises the cached `KeyError`.  A batch fetch
returns every requested key that exists in the store with its value; a
missing key is omitted when it was memoized by a plain `get`/containment
check, but is returned as a `KeyError` entry otherwise. -/
theorem cachedMapper_memoization (u : Store) (ops : List MapperOp)
    (h : NoDefaults ops) :
    GoodCache u (runMapper u [] ops) ∧
    (∀ k, (CachedMapper.containsKey u (runMapper u [] ops) k).ans =
      .boolAns (u k).isSome) ∧
    (∀ k, (∀ e, (runMapper u [] ops).lookup k ≠ some (.exc e)) →
      (CachedMapper.get u (runMapper u [] ops) k none).ans = .bytesAns (u k)) ∧
    (∀ k e, (runMapper u [] ops).lookup k = some (.exc e) →
      (CachedMapper.get u (runMapper u [] ops) k none).ans = .raisedAns k ∧
        u k = none) ∧
    (∀ keys k, k ∈ keys → ∀ items,
      (CachedMapper.getitems u (runMapper u [] ops) keys).ans = .itemsAns items →
      ((∀ b, u k = some b → (k, CVal.val b) ∈ items) ∧
       (u k = none → (runMapper u [] ops).lookup k = some .noneVal →
         k ∉ items.map Prod.fst) ∧
       (u k = none → (runMapper u [] ops).lookup k ≠ some CVal.noneVal →
         (k, CVal.exc k) ∈ items))) ∧
    (∀ op : MapperOp, ∀ q ∈ (op.step u (runMapper u [] ops)).queried,
      (runMapper u [] ops).lookup q = none) ∧
    (∀ op : MapperOp, ∀ k v, (runMapper u [] ops).lookup k = some v →
      ((op.step u (runMapper u [] ops)).cache).lookup k = some v) := by
  have hg : GoodCache u (runMapper u [] ops) :=
    goodCache_runMapper u ops [] (fun k v hv => by cases hv) h
  exact ⟨hg,
    fun k => containsKey_char u _ k hg,
    fun k hne => get_char_no_exc u _ k hg hne,
    fun k e he => get_char_exc u _ k e hg he,
    fun keys k hk items hit => getitems_char u _ keys hg k hk items hit,
    fun op => step_queried_uncached u _ op,
    fun op => step_cache_monotone u _ op⟩

/-- C9 witness: applying the memoization theorem to the concrete empty
store after a plain `get("m")` — the containment check answers false, and
`get("m")` returns the plain store's "not found" answer. -/
theorem cachedMapper_memoization_witness :
    (CachedMapper.containsKey (fun _ => none)
        (runMapper (fun _ => none) [] [.get "m" none]) "m").ans =
      .boolAns false ∧
    (CachedMapper.get (fun _ => none)
        (runMapper (fun _ => none) [] [.get "m" none]) "m" none).ans =
      .bytesAns none := by
  have h := cachedMapper_memoization (fun _ => none) [.get "m" none] ⟨rfl, trivial⟩
  refine ⟨h.2.1 "m", h.2.2.1 "m" ?_⟩
  intro e hcon
  rw [show List.lookup "m" (runMapper (fun _ => none) [] [MapperOp.get "m" none]) =
    some CVal.noneVal from rfl] at hcon
  cases hcon

/-! ## Axes (`src/yaozarrs/_axis.py`)

An axis is one of the discriminated-union variants `SpaceAxis`, `TimeAxis`,
`ChannelAxis`, `CustomAxis`.  The `type` tag of the three named variants is
always present after construction (`_inject_type_if_missing`), so it needs no
set-flag; `CustomAxis.type` and every `unit` are optional fields whose
"explicitly set" state matters for serialization: `none` is unset,
`some none` is explicitly `null`, `some (some v)` is an explicit value. -/

/-- The `SpaceUnits` literal type. -/
def spaceUnits : List String :=
  ["angstrom", "attometer", "centimeter", "decimeter", "exameter", "femtometer",
   "foot", "gigameter", "hectometer", "inch", "kilometer", "megameter", "meter",
   "micrometer", "mile", "millimeter", "nanometer", "parsec", "petameter",
   "picometer", "terameter", "yard", "yoctometer", "yottameter", "zeptometer",
   "zettameter"]

/-- The `TimeUnits` literal type. -/
def timeUnits : List String :=
  ["attosecond", "centisecond", "day", "decisecond", "exasecond", "femtosecond",
   "gigasecond", "hectosecond", "hour", "kilosecond", "megasecond", "microsecond",
   "millisecond", "minute", "nanosecond", "petasecond", "picosecond", "second",
   "terasecond", "yoctosecond", "yottasecond", "zeptosecond", "zettasecond"]

/-- An `Axis` union member. -/
inductive Axis where
  | space (name : String) (unit : Option (Option String))
  | time (name : String) (unit : Option (Option String))
  | channel (name : String) (unit : Option (Option String))
  | custom (name : String) (type : Option (Option String)) (unit : Option (Option String))
  deriving DecidableEq

/-- The `name` field. -/
def Axis.name : Axis → String
  | .space n _ | .time n _ | .channel n _ | .custom n _ _ => n

/-- The Python `ax.type` attribute: the literal tag for the three named
variants, the stored value (effectively `None` when unset) for `CustomAxis`. -/
def Axis.typeStr : Axis → Option String
  | .space _ _ => some "space"
  | .time _ _ => some "time"
  | .channel _ _ => some "channel"
  | .custom _ t _ => t.getD none

/-- Whether the axis is the `CustomAxis` variant. -/
def Axis.isCustom : Axis → Bool
  | .custom _ _ _ => true
  | _ => false

/-- Construction-time validity of one axis: unit literals must be allowed for
the typed variants, and a `CustomAxis` cannot carry one of the reserved tags
"space"/"time"/"channel" — `_axis_discriminator` routes any object with a
reserved tag to the corresponding named variant, so such a `CustomAxis`
never validates as part of a document. -/
def Axis.fieldsValid : Axis → Bool
  | .space _ unit =>
    match unit with
    | some (some u) => spaceUnits.contains u
    | _ => true
  | .time _ unit =>
    match unit with
    | some (some u) => timeUnits.contains u
    | _ => true
  | .channel _ _ => true
  | .custom _ t _ =>
    match t with
    | some (some s) => !(s == "space" || s == "time" || s == "channel")
    | _ => true

/-- Propositional form of `Axis.fieldsValid`. -/
def Axis.WellFormed : Axis → Prop
  | .space _ unit =>
    match unit with
    | some (some u) => u ∈ spaceUnits
    | _ => True
  | .time _ unit =>
    match unit with
    | some (some u) => u ∈ timeUnits
    | _ => True
  | .channel _ _ => True
  | .custom _ t _ =>
    match t with
    | some (some s) => s ≠ "space" ∧ s ≠ "time" ∧ s ≠ "channel"
    | _ => True

theorem Axis.fieldsValid_iff (ax : Axis) : ax.fieldsValid = true ↔ ax.WellFormed := by
  cases ax with
  | space n unit =>
    match unit with
    | none => simp [Axis.fieldsValid, Axis.WellFormed]
    | some none => simp [Axis.fieldsValid, Axis.WellFormed]
    | some (some u) => simp [Axis.fieldsValid, Axis.WellFormed]
  | time n unit =>
    match unit with
    | none => simp [Axis.fieldsValid, Axis.WellFormed]
    | some none => simp [Axis.fieldsValid, Axis.WellFormed]
    | some (some u) => simp [Axis.fieldsValid, Axis.WellFormed]
  | channel n unit => simp [Axis.fieldsValid, Axis.WellFormed]
  | custom n t unit =>
    match t with
    | none => simp [Axis.fieldsValid, Axis.WellFormed]
    | some none => simp [Axis.fieldsValid, Axis.WellFormed]
    | some (some s) => simp [Axis.fieldsValid, Axis.WellFormed, and_assoc]

/-- Stable insertion into a sorted list: the new element goes before the
first element it compares `le` to, so existing ties keep their order. -/
def pyInsert {α : Type} (le : α → α → Bool) (x : α) : List α → List α
  | [] => [x]
  | y :: ys => if le x y then x :: y :: ys else y :: pyInsert le x ys

/-- Model of Python's stable `sorted(...)`.  For a total preorder every
stable sort produces the same list, so insertion sort agrees with timsort. -/
def pySorted {α : Type} (le : α → α → Bool) : List α → List α
  | [] => []
  | x :: xs => pyInsert le x (pySorted le xs)

theorem mem_pyInsert {α : Type} (le : α → α → Bool) (x z : α) :
    ∀ l, z ∈ pyInsert le x l ↔ z = x ∨ z ∈ l := by
  intro l
  induction l with
  | nil => simp [pyInsert]
  | cons y ys ih =>
    rw [pyInsert]
    by_cases h : le x y = true
    · rw [if_pos h]
      simp only [List.mem_cons]
    · rw [if_neg h]
      simp only [List.mem_cons, ih]
      tauto

theorem pairwise_pyInsert {α : Type} (le : α → α → Bool)
    (htrans : ∀ a b c, le a b = true → le b c = true → le a c = true)
    (htotal : ∀ a b, (le a b || le b a) = true) (x : α) :
    ∀ l, List.Pairwise (fun a b => le a b = true) l →
      List.Pairwise (fun a b => le a b = true) (pyInsert le x l) := by
  intro l
  induction l with
  | nil => intro _; simp [pyInsert]
  | cons y ys ih =>
    intro h
    obtain ⟨hy, hys⟩ := List.pairwise_cons.mp h
    rw [pyInsert]
    by_cases hxy : le x y = true
    · rw [if_pos hxy]
      refine List.pairwise_cons.mpr ⟨?_, h⟩
      intro z hz
      rcases List.mem_cons.mp hz with rfl | hz'
      · exact hxy
      · exact htrans x y z hxy (hy z hz')
    · rw [if_neg hxy]
      have hyx : le y x = true := by
        have ht := htotal x y
        rw [Bool.or_eq_true] at ht
        rcases ht with h' | h'
        · exact absurd h' hxy
        · exact h'
      refine List.pairwise_cons.mpr ⟨?_, ih hys⟩
      intro z hz
      rcases (mem_pyInsert le x z ys).mp hz with rfl | hz'
      · exact hyx
      · exact hy z hz'

theorem pySorted_pairwise {α : Type} (le : α → α → Bool)
    (htrans : ∀ a b c, le a b = true → le b c = true → le a c = true)
    (htotal : ∀ a b, (le a b || le b a) = true) :
    ∀ l, List.Pairwise (fun a b => le a b = true) (pySorted le l) := by
  intro l
  induction l with
  | nil => simp [pySorted]
  | cons x xs ih =>
    rw [pySorted]
    exact pairwise_pyInsert le htrans htotal x _ ih

theorem pySorted_of_pairwise {α : Type} (le : α → α → Bool) :
    ∀ l, List.Pairwise (fun a b => le a b = true) l → pySorted le l = l := by
  intro l
  induction l with
  | nil => intro _; rfl
  | cons x xs ih =>
    intro h
    obtain ⟨hx, hxs⟩ := List.pairwise_cons.mp h
    rw [pySorted, ih hxs]
    cases xs with
    | nil => rfl
    | cons y ys => rw [pyInsert, if_pos (hx y (by simp))]

/-- Sortedness check: a list equals its stable sort iff it is pairwise
non-decreasing. -/
theorem pySorted_eq_self_iff {α : Type} (le : α → α → Bool)
    (htrans : ∀ a b c, le a b = true → le b c = true → le a c = true)
    (htotal : ∀ a b, (le a b || le b a) = true) (l : List α) :
    (pySorted le l = l) ↔ List.Pairwise (fun a b => le a b = true) l :=
  ⟨fun h => h ▸ pySorted_pairwise le htrans htotal l, pySorted_of_pairwise le l⟩

/-! ### Pydantic value equality

`UniqueList` rejects items that are equal under `_is_json_equivalent`, which
for `BaseModel` items is pydantic `__eq__`.  Pydantic `__eq__` compares field
VALUES only: it ignores which fields were explicitly set (`exclude_unset`
bookkeeping), and nested `dict` values compare order-insensitively.  We
express this equality through canonicalization maps (`canon`): two embedded
values are pydantic-equal exactly when their canonical forms are equal, so
each uniqueness check below is `Nodup` of the canonicalized list. -/

mutual

/-- Canonical form of a JSON value under Python equality: object fields are
sorted by key (Python `dict.__eq__` ignores insertion order; keys of a
parsed dict are unique, so sorting by key is a normal form). -/
def Json.canon : Json → Json
  | .null => .null
  | .bool b => .bool b
  | .num q => .num q
  | .str s => .str s
  | .arr xs => .arr (Json.canonArr xs)
  | .obj kvs =>
    .obj (pySorted (fun a b : String × Json => decide (a.1 ≤ b.1))
      (Json.canonObj kvs))

/-- Canonicalize every element of a JSON array (list equality in Python is
order-sensitive). -/
def Json.canonArr : List Json → List Json
  | [] => []
  | x :: xs => x.canon :: Json.canonArr xs

/-- Canonicalize every value of a JSON object. -/
def Json.canonObj : List (String × Json) → List (String × Json)
  | [] => []
  | (k, v) :: kvs => (k, v.canon) :: Json.canonObj kvs

end

/-- Canonical form of an `Axis` under pydantic `__eq__`: an unset optional
field carries its default value (`None` for the units and the custom type),
so set-flags are erased with `Option.join`. -/
def Axis.canon : Axis → Axis
  | .space n u => .space n (some u.join)
  | .time n u => .time n (some u.join)
  | .channel n u => .channel n (some u.join)
  | .custom n t u => .custom n (some t.join) (some u.join)

/-- The ordering key used by `_validate_axes_list`:
`type_order = {"time": 0, "channel": 1, None: 1, "space": 2}` read with
`type_order.get(ax.type, 3)`. -/
def axisTypeOrder : Option String → ℕ
  | some "time" => 0
  | some "channel" => 1
  | none => 1
  | some "space" => 2
  | some _ => 3

/-- The comparison used to sort axes (`sorted` with the `type_order` key). -/
def axisLe (a b : Axis) : Bool := axisTypeOrder a.typeStr ≤ axisTypeOrder b.typeStr

/-- `_validate_axes_list`: unique names (`len(names) != len(set(names))`
fails), 2-3 space axes, at most one time axis, at most one channel axis, and
the list must equal its stable sort by the `type_order` key
(`axes != sorted_axes` fails).  The Python locals `names` / `n_space_axes`
are inlined. -/
def validate_axes_list (axes : List Axis) : Bool :=
  if (axes.map Axis.name).dedup.length ≠ (axes.map Axis.name).length then false
  else if ((axes.filter (fun ax => ax.typeStr == some "space")).length < 2 ||
      (axes.filter (fun ax => ax.typeStr == some "space")).length > 3) then false
  else if (axes.filter (fun ax => ax.typeStr == some "time")).length > 1 then false
  else if (axes.filter (fun ax => ax.typeStr == some "channel")).length > 1 then false
  else pySorted axisLe axes == axes

/-- The `AxesList` annotated type: per-axis field validation (discriminated
union), unique items, 2-5 entries, then `_validate_axes_list`. -/
def axesListValid (axes : List Axis) : Bool :=
  axes.all Axis.fieldsValid && decide axes.Nodup &&
    (2 ≤ axes.length && axes.length ≤ 5) && validate_axes_list axes

/-! ## Coordinate transformations (`src/yaozarrs/v05/_image.py`) -/

/-- A `CoordinateTransformation` union member.  `typeSet` records whether the
`type` discriminator field was explicitly set (it has a default, so a caller
may omit it); `v` is the `scale` / `translation` float list (`MinLen(2)`). -/
inductive Transform where
  | scale (typeSet : Bool) (v : List ℚ)
  | translation (typeSet : Bool) (v : List ℚ)
  deriving DecidableEq

/-- `ndim`: the length of the scale/translation vector. -/
def Transform.ndim : Transform → ℕ
  | .scale _ v | .translation _ v => v.length

/-- `isinstance(t, ScaleTransformation)`. -/
def Transform.isScale : Transform → Bool
  | .scale _ _ => true
  | _ => false

/-- `isinstance(t, TranslationTransformation)`. -/
def Transform.isTranslation : Transform → Bool
  | .translation _ _ => true
  | _ => false

/-- Per-transform field validation: the vector has `MinLen(2)`. -/
def Transform.fieldsValid (t : Transform) : Bool := 2 ≤ t.ndim

/-- `_validate_transforms_list`: exactly one scale (`num_scales != 1` fails),
at most one translation (`num_trans > 1` fails), and when a translation is
present, its first index must not be less than the first scale index.  The
Python locals `num_scales` / `num_trans` are inlined. -/
def validate_transforms_list (ts : List Transform) : Bool :=
  if (ts.filter Transform.isScale).length ≠ 1 then false
  else if (ts.filter Transform.isTranslation).length > 1 then false
  else if (ts.filter Transform.isTranslation).length ≠ 0 then
    decide (¬ (ts.findIdx Transform.isTranslation < ts.findIdx Transform.isScale))
  else true

/-- The `CoordinateTransformsList` annotated type: per-item field validation,
`MinLen(1)`, then `_validate_transforms_list`. -/
def transformsListValid (ts : List Transform) : Bool :=
  ts.all Transform.fieldsValid && 1 ≤ ts.length && validate_transforms_list ts

/-- Declarative reading of `_validate_transforms_list`: exactly one scale
transformation, at most one translation transformation, and every scale
position precedes every translation position. -/
def TransformsSpec (ts : List Transform) : Prop :=
  ts.countP Transform.isScale = 1 ∧
  ts.countP Transform.isTranslation ≤ 1 ∧
  ∀ i j, ∀ hi : i < ts.length, ∀ hj : j < ts.length,
    ts[i].isScale = true → ts[j].isTranslation = true → i < j

theorem getElem_idx_congr {α : Type} (l : List α) (i j : ℕ) (h : i = j)
    (hi : i < l.length) : l[i] = l.get ⟨j, h ▸ hi⟩ := by
  subst h
  rfl

theorem Transform.not_scale_and_translation (t : Transform) :
    ¬(t.isScale = true ∧ t.isTranslation = true) := by
  cases t <;> simp [Transform.isScale, Transform.isTranslation]

theorem two_pos_le_countP {α : Type} (p : α → Bool) :
    ∀ (ts : List α) (i j : ℕ), i < j → ∀ hi : i < ts.length, ∀ hj : j < ts.length,
      p ts[i] = true → p ts[j] = true → 2 ≤ ts.countP p := by
  intro ts
  induction ts with
  | nil => intro i j hij hi hj; simp at hi
  | cons x xs ih =>
    intro i j hij hi hj hpi hpj
    match i, j with
    | 0, j + 1 =>
      rw [List.getElem_cons_zero] at hpi
      rw [List.getElem_cons_succ] at hpj
      have hjl : j < xs.length := by simpa using hj
      have hpos : 0 < xs.countP p :=
        List.countP_pos_iff.mpr ⟨_, List.getElem_mem hjl, hpj⟩
      rw [List.countP_cons_of_pos _ _ hpi]
      omega
    | i + 1, j + 1 =>
      rw [List.getElem_cons_succ] at hpi
      rw [List.getElem_cons_succ] at hpj
      have h2 := ih i j (by omega) (by simpa using hi) (by simpa using hj) hpi hpj
      cases hx : p x with
      | false =>
        rw [List.countP_cons_of_neg _ _ (by simp [hx])]
        exact h2
      | true =>
        rw [List.countP_cons_of_pos _ _ hx]
        omega

theorem countP_le_one_pos_eq_findIdx {α : Type} (p : α → Bool) (ts : List α)
    (hc : ts.countP p ≤ 1) (j : ℕ) (hj : j < ts.length)
    (hpj : p ts[j] = true) : j = ts.findIdx p := by
  have hex : ∃ x ∈ ts, p x = true := ⟨ts[j], List.getElem_mem hj, hpj⟩
  have hflt : ts.findIdx p < ts.length := List.findIdx_lt_length.mpr hex
  obtain ⟨hpf, hmin⟩ := (List.findIdx_eq hflt).mp rfl
  rcases lt_trichotomy j (ts.findIdx p) with h | h | h
  · exact absurd hpj (by simpa using hmin j h)
  · exact h
  · exfalso
    have := two_pos_le_countP p ts (ts.findIdx p) j h hflt hj hpf hpj
    omega

/-- Helper: `_validate_transforms_list` succeeds exactly on lists satisfying
its declarative reading. -/
theorem validate_transforms_list_iff (ts : List Transform) :
    validate_transforms_list ts = true ↔ TransformsSpec ts := by
  have hcs : (ts.filter Transform.isScale).length = ts.countP Transform.isScale :=
    (List.countP_eq_length_filter _ _).symm
  have hct : (ts.filter Transform.isTranslation).length =
      ts.countP Transform.isTranslation :=
    (List.countP_eq_length_filter _ _).symm
  unfold validate_transforms_list TransformsSpec
  by_cases h1 : (ts.filter Transform.isScale).length = 1
  · rw [if_neg (by omega)]
    have hc1 : ts.countP Transform.isScale = 1 := by rw [← hcs]; exact h1
    by_cases h2 : (ts.filter Transform.isTranslation).length > 1
    · rw [if_pos h2]
      rw [hct] at h2
      constructor
      · intro h; cases h
      · rintro ⟨-, hle, -⟩
        omega
    · rw [if_neg h2]
      rw [hct] at h2
      have hc2 : ts.countP Transform.isTranslation ≤ 1 := by omega
      by_cases h3 : (ts.filter Transform.isTranslation).length ≠ 0
      · rw [if_pos h3]
        rw [hct] at h3
        rw [decide_eq_true_eq, not_lt]
        constructor
        · intro hle
          refine ⟨hc1, hc2, ?_⟩
          intro i j hi hj hsi htj
          have hif : i = ts.findIdx Transform.isScale :=
            countP_le_one_pos_eq_findIdx _ ts (by omega) i hi hsi
          have hjf : j = ts.findIdx Transform.isTranslation :=
            countP_le_one_pos_eq_findIdx _ ts hc2 j hj htj
          have hne : i ≠ j := by
            intro he
            have hgg : ts[i] = ts.get ⟨j, he ▸ hi⟩ := getElem_idx_congr ts i j he hi
            rw [hgg] at hsi
            exact Transform.not_scale_and_translation (ts.get ⟨j, he ▸ hi⟩)
              ⟨hsi, htj⟩
          omega
        · rintro ⟨-, -, hall⟩
          have hexs : ∃ x ∈ ts, Transform.isScale x = true := by
            have hp : 0 < ts.countP Transform.isScale := by omega
            exact List.countP_pos_iff.mp hp
          have hext : ∃ x ∈ ts, Transform.isTranslation x = true := by
            have hp : 0 < ts.countP Transform.isTranslation := by omega
            exact List.countP_pos_iff.mp hp
          have hfs : ts.findIdx Transform.isScale < ts.length :=
            List.findIdx_lt_length.mpr hexs
          have hft : ts.findIdx Transform.isTranslation < ts.length :=
            List.findIdx_lt_length.mpr hext
          have := hall (ts.findIdx Transform.isScale)
            (ts.findIdx Transform.isTranslation) hfs hft
            (List.findIdx_getElem (w := hfs)) (List.findIdx_getElem (w := hft))
          omega
      · rw [if_neg h3]
        rw [hct] at h3
        have hc3 : ts.countP Transform.isTranslation = 0 := by omega
        constructor
        · intro _
          refine ⟨hc1, hc2, ?_⟩
          intro i j hi hj hsi htj
          exfalso
          have hp : 0 < ts.countP Transform.isTranslation :=
            List.countP_pos_iff.mpr ⟨ts[j], List.getElem_mem hj, htj⟩
          omega
        · intro _; rfl
  · rw [if_pos h1]
    constructor
    · intro h; cases h
    · rintro ⟨he, -, -⟩
      rw [hcs] at h1
      exact (h1 he).elim

/-- C4: a dataset's coordinate-transformation list validates iff it contains
exactly one scale transformation, at most one translation transformation,
and any translation appears at a later position than the scale. -/
theorem transforms_list_valid_iff (ts : List Transform) :
    validate_transforms_list ts = true ↔
      (ts.countP Transform.isScale = 1 ∧
       ts.countP Transform.isTranslation ≤ 1 ∧
       ∀ i j, ∀ hi : i < ts.length, ∀ hj : j < ts.length,
         ts[i].isScale = true → ts[j].isTranslation = true → i < j) :=
  validate_transforms_list_iff ts

/-! ## Datasets and multiscales (`src/yaozarrs/v05/_image.py`) -/

/-- Split a character list on '/' (Python `path.split("/")`). -/
def splitOnSlash : List Char → List (List Char)
  | [] => [[]]
  | c :: rest =>
    if c = '/' then [] :: splitOnSlash rest
    else
      match splitOnSlash rest with
      | [] => [[c]]
      | p :: ps => (c :: p) :: ps

/-- One part matches `BAD_NODE_RE` (`^(?:|\.+|__.*|.*\/.*)$`): empty or all
periods (the first two alternatives), or starting with "__".  Parts produced
by splitting on "/" can never contain "/". -/
def badNodePart (cs : List Char) : Bool :=
  cs.all (fun c => c == '.') || cs.take 2 == ['_', '_']

/-- `validate_node_name` (`src/yaozarrs/_util.py`): every '/'-separated part
of the path must not match `BAD_NODE_RE`.  (The "risky characters" branch
only warns and is not part of construction validity.) -/
def validNodeName (path : String) : Bool :=
  (splitOnSlash path.data).all (fun part => !(badNodePart part))

/-- A `Dataset`: a path and its coordinate transformations (both fields are
required). -/
structure Dataset where
  path : String
  coordinateTransformations : List Transform
  deriving DecidableEq

/-- Per-field validation of a `Dataset`: the `SuggestDatasetPath` node-name
check on `path`, and the `CoordinateTransformsList` checks. -/
def Dataset.fieldsValid (d : Dataset) : Bool :=
  validNodeName d.path && transformsListValid d.coordinateTransformations

/-- `dt.coordinateTransformations[0].ndim` — the Python code indexes the
first transformation; the empty case (returning 0 here) never passes the
transforms-list validation. -/
def Dataset.firstTransformNdim (d : Dataset) : ℕ :=
  match d.coordinateTransformations with
  | [] => 0
  | t :: _ => t.ndim

/-- Canonical form of a transformation under pydantic `__eq__`: the `type`
field's value is the same literal whether it was explicitly supplied or
defaulted, so the set-flag is erased. -/
def Transform.canon : Transform → Transform
  | .scale _ v => .scale true v
  | .translation _ v => .translation true v

/-- Canonical form of a `Dataset` under pydantic `__eq__`. -/
def Dataset.canon (d : Dataset) : Dataset :=
  ⟨d.path, d.coordinateTransformations.map Transform.canon⟩

/-- Python dict assignment `d[k] = v`: overwrite in place, else append. -/
def assocSet (l : List (String × ℕ)) (k : String) (v : ℕ) : List (String × ℕ) :=
  if l.any (fun p => p.1 == k) then l.map (fun p => if p.1 == k then (k, v) else p)
  else l ++ [(k, v)]

/-- `_validate_datasets_list`: the dict `{dt.path: dt.coordinateTransformations[0].ndim}`
must have exactly one distinct value (`len(set(ndims.values())) != 1` fails),
and no value may exceed 5.  The Python locals are inlined. -/
def validate_datasets_list (datasets : List Dataset) : Bool :=
  if ((datasets.foldl (fun acc dt => assocSet acc dt.path dt.firstTransformNdim) []).map
      Prod.snd).dedup.length ≠ 1 then false
  else !(((datasets.foldl (fun acc dt => assocSet acc dt.path dt.firstTransformNdim) []).map
      Prod.snd).any (fun n => n > 5))

/-- The `DatasetsList` annotated type: per-item field validation, unique
items under pydantic value equality (`_validate_unique_list` compares models
with `__eq__`, which ignores set-flags), `MinLen(1)`, then
`_validate_datasets_list`. -/
def datasetsListValid (datasets : List Dataset) : Bool :=
  datasets.all Dataset.fieldsValid &&
    decide (datasets.map Dataset.canon).Nodup &&
    1 ≤ datasets.length && validate_datasets_list datasets

/-- A `Multiscale`.  Optional fields track "explicitly set" state with an
outer `Option` (`none` = unset) and nullability with the inner one. -/
structure Multiscale where
  name : Option (Option String)
  axes : List Axis
  datasets : List Dataset
  coordinateTransformations : Option (Option (List Transform))
  type : Option (Option String)
  metadata : Option (Option Json)
  deriving DecidableEq

/-- Canonical form of a `Multiscale` under pydantic `__eq__`: set-flags are
erased on every (transitively) optional field, and the `metadata` dict is
normalized for order-insensitive comparison. -/
def Multiscale.canon (m : Multiscale) : Multiscale :=
  ⟨some m.name.join, m.axes.map Axis.canon, m.datasets.map Dataset.canon,
   some (m.coordinateTransformations.join.map (List.map Transform.canon)),
   some m.type.join, some (m.metadata.join.map Json.canon)⟩

/-- `Multiscale.ndim`: the number of axes. -/
def Multiscale.ndim (m : Multiscale) : ℕ := m.axes.length

/-- The effective global transformation list (empty when unset or null). -/
def Multiscale.globalTransforms (m : Multiscale) : List Transform :=
  match m.coordinateTransformations with
  | some (some l) => l
  | _ => []

/-- Validation of the optional global `coordinateTransformations` field. -/
def Multiscale.globalTransformsValid (m : Multiscale) : Bool :=
  match m.coordinateTransformations with
  | some (some l) => transformsListValid l
  | _ => true

/-- `Dataset.scale_transform.scale`: the vector of the first scale
transformation (`next(t for t in ... if isinstance(t, Scale))`). -/
def Dataset.scaleVals (d : Dataset) : List ℚ :=
  match d.coordinateTransformations.find? Transform.isScale with
  | some (.scale _ v) => v
  | _ => []

/-- `spatial_indices`: positions of the space axes, in axis order. -/
def Multiscale.spatialIndices (m : Multiscale) : List ℕ :=
  m.axes.enum.filterMap (fun p => if p.2.typeStr == some "space" then some p.1 else none)

/-- `spatial_scales`: per dataset, the scale entries at the space-axis
positions.  (Python indexes `scale[idx]`; when the earlier dimensionality
checks hold every index is in range, so the `getD` default is never hit on a
valid multiscale.) -/
def Multiscale.spatialScales (m : Multiscale) : List (List ℚ) :=
  m.datasets.map (fun ds => m.spatialIndices.map (fun i => ds.scaleVals.getD i 0))

/-- Python tuple comparison `a <= b` (lexicographic), as used by `sorted`. -/
def listLe : List ℚ → List ℚ → Bool
  | [], _ => true
  | _ :: _, [] => false
  | a :: as, b :: bs => if a < b then true else if b < a then false else listLe as bs

/-- Python tuple comparison `a < b` (strict lexicographic). -/
def listLt : List ℚ → List ℚ → Bool
  | [], [] => false
  | [], _ :: _ => true
  | _ :: _, [] => false
  | a :: as, b :: bs => if a < b then true else if b < a then false else listLt as bs

/-- `Multiscale._post_validate`: every per-dataset transformation and every
global transformation must have `ndim` equal to the number of axes, and the
spatial scale tuples must equal their sort (non-decreasing from highest to
lowest resolution). -/
def Multiscale.post_validate (m : Multiscale) : Bool :=
  m.datasets.all (fun ds =>
    ds.coordinateTransformations.all (fun t => t.ndim == m.ndim)) &&
  m.globalTransforms.all (fun t => t.ndim == m.ndim) &&
  (pySorted listLe m.spatialScales == m.spatialScales)

/-- Construction of a `Multiscale` succeeds iff the axes-list, datasets-list
and global-transforms field validators pass and `_post_validate` passes. -/
def Multiscale.construct_valid (m : Multiscale) : Bool :=
  axesListValid m.axes && datasetsListValid m.datasets &&
    m.globalTransformsValid && m.post_validate

/-- All transformations attached to a multiscale: those of every dataset,
then the optional global list. -/
def Multiscale.allTransforms (m : Multiscale) : List Transform :=
  (m.datasets.map Dataset.coordinateTransformations).flatten ++ m.globalTransforms

theorem axisLe_trans (a b c : Axis) :
    axisLe a b = true → axisLe b c = true → axisLe a c = true := by
  unfold axisLe
  simp only [decide_eq_true_eq]
  omega

theorem axisLe_total (a b : Axis) : (axisLe a b || axisLe b a) = true := by
  unfold axisLe
  rcases Nat.le_total (axisTypeOrder a.typeStr) (axisTypeOrder b.typeStr) with h | h <;>
    simp [h]

theorem listLe_trans : ∀ a b c : List ℚ,
    listLe a b = true → listLe b c = true → listLe a c = true := by
  intro a
  induction a with
  | nil => intro b c _ _; rfl
  | cons x xs ih =>
    intro b c hab hbc
    cases b with
    | nil => simp [listLe] at hab
    | cons y ys =>
      cases c with
      | nil => simp [listLe] at hbc
      | cons z zs =>
        rw [listLe] at hab hbc ⊢
        rcases lt_trichotomy x y with hxy | hxy | hxy
        · rcases lt_trichotomy y z with hyz | hyz | hyz
          · have : x < z := lt_trans hxy hyz
            simp [this]
          · subst hyz
            simp [hxy]
          · rw [if_neg (lt_asymm hyz), if_pos hyz] at hbc
            cases hbc
        · subst hxy
          rcases lt_trichotomy x z with hxz | hxz | hxz
          · simp [hxz]
          · subst hxz
            rw [if_neg (lt_irrefl x), if_neg (lt_irrefl x)] at hab hbc ⊢
            exact ih ys zs hab hbc
          · rw [if_neg (lt_asymm hxz), if_pos hxz] at hbc
            cases hbc
        · rw [if_neg (lt_asymm hxy), if_pos hxy] at hab
          cases hab

theorem listLe_total : ∀ a b : List ℚ, (listLe a b || listLe b a) = true := by
  intro a
  induction a with
  | nil => intro b; simp [listLe]
  | cons x xs ih =>
    intro b
    cases b with
    | nil => simp [listLe]
    | cons y ys =>
      rw [listLe, listLe]
      rcases lt_trichotomy x y with h | h | h
      · simp [h]
      · subst h
        rw [if_neg (lt_irrefl x), if_neg (lt_irrefl x), if_neg (lt_irrefl x),
          if_neg (lt_irrefl x)]
        exact ih ys
      · simp [h, if_neg (lt_asymm h)]

theorem dedup_length_eq_iff_nodup {α : Type} [DecidableEq α] (l : List α) :
    l.dedup.length = l.length ↔ l.Nodup := by
  constructor
  · intro h
    exact List.dedup_eq_self.mp ((List.dedup_sublist l).eq_of_length h)
  · intro h
    rw [List.dedup_eq_self.mpr h]

theorem dedup_of_all_eq {α : Type} [DecidableEq α] (l : List α) (n : α)
    (hne : l ≠ []) (hall : ∀ x ∈ l, x = n) : l.dedup = [n] := by
  induction l with
  | nil => exact absurd rfl hne
  | cons x xs ih =>
    have hx : x = n := hall x (List.mem_cons_self x xs)
    subst hx
    cases xs with
    | nil => simp
    | cons y ys =>
      have hy : y = x := (hall y (by simp)).trans (hall x (by simp)).symm
      have hmem : x ∈ y :: ys := by
        rw [hy]
        exact List.mem_cons_self x ys
      rw [List.dedup_cons_of_mem hmem]
      exact ih (by simp) (fun z hz => hall z (List.mem_cons_of_mem x hz))

theorem assocSet_ne_nil (l : List (String × ℕ)) (k : String) (v : ℕ) :
    assocSet l k v ≠ [] := by
  unfold assocSet
  by_cases h : l.any (fun p => p.1 == k)
  · rw [if_pos h]
    intro hc
    rw [List.map_eq_nil_iff] at hc
    subst hc
    simp at h
  · rw [if_neg h]
    simp

theorem assocSet_snd_mem (l : List (String × ℕ)) (k : String) (v : ℕ) :
    ∀ p ∈ assocSet l k v, p.2 = v ∨ p ∈ l := by
  unfold assocSet
  by_cases h : l.any (fun p => p.1 == k)
  · rw [if_pos h]
    intro p hp
    obtain ⟨q, hq, hqp⟩ := List.mem_map.mp hp
    by_cases hqk : (q.1 == k) = true
    · rw [if_pos hqk] at hqp
      left
      rw [← hqp]
    · rw [Bool.not_eq_true] at hqk
      rw [if_neg (by simp [hqk])] at hqp
      right
      rw [← hqp]
      exact hq
  · rw [if_neg h]
    intro p hp
    rcases List.mem_append.mp hp with hl | hr
    · exact Or.inr hl
    · left
      have : p = (k, v) := by simpa using hr
      rw [this]

theorem foldl_assocSet_ne_nil (f : Dataset → ℕ) :
    ∀ (datasets : List Dataset) (l : List (String × ℕ)),
      (datasets ≠ [] ∨ l ≠ []) →
      datasets.foldl (fun acc dt => assocSet acc dt.path (f dt)) l ≠ [] := by
  intro datasets
  induction datasets with
  | nil =>
    intro l h
    rcases h with h | h
    · exact absurd rfl h
    · simpa using h
  | cons d ds ih =>
    intro l _
    rw [List.foldl_cons]
    exact ih _ (Or.inr (assocSet_ne_nil l d.path (f d)))

theorem foldl_assocSet_snd (f : Dataset → ℕ) :
    ∀ (datasets : List Dataset) (l : List (String × ℕ)),
      ∀ p ∈ datasets.foldl (fun acc dt => assocSet acc dt.path (f dt)) l,
        p ∈ l ∨ ∃ dt ∈ datasets, p.2 = f dt := by
  intro datasets
  induction datasets with
  | nil => intro l p hp; exact Or.inl hp
  | cons d ds ih =>
    intro l p hp
    rw [List.foldl_cons] at hp
    rcases ih _ p hp with hin | ⟨dt, hdt, hval⟩
    · rcases assocSet_snd_mem l d.path (f d) p hin with hv | hl
      · exact Or.inr ⟨d, List.mem_cons_self d ds, hv⟩
      · exact Or.inl hl
    · exact Or.inr ⟨dt, List.mem_cons_of_mem d hdt, hval⟩

/-- Helper: declarative reading of `_validate_axes_list`. -/
theorem validate_axes_list_iff (axes : List Axis) :
    validate_axes_list axes = true ↔
      ((axes.map Axis.name).Nodup ∧
       (2 ≤ axes.countP (fun ax => ax.typeStr == some "space") ∧
        axes.countP (fun ax => ax.typeStr == some "space") ≤ 3) ∧
       axes.countP (fun ax => ax.typeStr == some "time") ≤ 1 ∧
       axes.countP (fun ax => ax.typeStr == some "channel") ≤ 1 ∧
       List.Pairwise (fun a b => axisTypeOrder a.typeStr ≤ axisTypeOrder b.typeStr) axes) := by
  have hcs : ∀ p : Axis → Bool, (axes.filter p).length = axes.countP p :=
    fun p => (List.countP_eq_length_filter _ _).symm
  have hpiff : List.Pairwise (fun a b => axisLe a b = true) axes ↔
      List.Pairwise (fun a b => axisTypeOrder a.typeStr ≤ axisTypeOrder b.typeStr) axes :=
    ⟨fun h => h.imp (fun hab => by simpa [axisLe] using hab),
     fun h => h.imp (fun hab => by simpa [axisLe] using hab)⟩
  unfold validate_axes_list
  by_cases h1 : (axes.map Axis.name).dedup.length ≠ (axes.map Axis.name).length
  · rw [if_pos h1]
    constructor
    · intro h; cases h
    · rintro ⟨hn, -⟩
      exact (h1 ((dedup_length_eq_iff_nodup _).mpr hn)).elim
  · rw [if_neg h1]
    push_neg at h1
    have hnd : (axes.map Axis.name).Nodup := (dedup_length_eq_iff_nodup _).mp h1
    by_cases h2 : ((axes.filter (fun ax => ax.typeStr == some "space")).length < 2 ||
        (axes.filter (fun ax => ax.typeStr == some "space")).length > 3) = true
    · rw [if_pos h2]
      rw [Bool.or_eq_true, decide_eq_true_eq, decide_eq_true_eq, hcs] at h2
      constructor
      · intro h; cases h
      · rintro ⟨-, ⟨hs1, hs2⟩, -⟩
        rcases h2 with h2 | h2 <;> omega
    · rw [if_neg h2]
      rw [Bool.or_eq_true, decide_eq_true_eq, decide_eq_true_eq, hcs] at h2
      push_neg at h2
      by_cases h3 : (axes.filter (fun ax => ax.typeStr == some "time")).length > 1
      · rw [if_pos h3]
        rw [hcs] at h3
        constructor
        · intro h; cases h
        · rintro ⟨-, -, ht, -⟩
          omega
      · rw [if_neg h3]
        rw [hcs] at h3
        by_cases h4 : (axes.filter (fun ax => ax.typeStr == some "channel")).length > 1
        · rw [if_pos h4]
          rw [hcs] at h4
          constructor
          · intro h; cases h
          · rintro ⟨-, -, -, hc, -⟩
            omega
        · rw [if_neg h4]
          rw [hcs] at h4
          rw [beq_iff_eq, pySorted_eq_self_iff axisLe axisLe_trans axisLe_total, hpiff]
          constructor
          · intro hsorted
            exact ⟨hnd, ⟨by omega, by omega⟩, by omega, by omega, hsorted⟩
          · rintro ⟨-, -, -, -, hsorted⟩
            exact hsorted

/-- C8 amended theorem: whenever construction of a `Multiscale` succeeds, the
datasets' *spatial* scale tuples (the scale entries at space-axis positions,
compared lexicographically like Python tuples) are non-decreasing across the
datasets list. -/
theorem multiscale_spatial_scales_sorted (m : Multiscale)
    (h : m.construct_valid = true) :
    List.Pairwise (fun a b => listLe a b = true) m.spatialScales := by
  have hp : m.post_validate = true := by
    unfold Multiscale.construct_valid at h
    simp only [Bool.and_eq_true] at h
    exact h.2
  unfold Multiscale.post_validate at hp
  simp only [Bool.and_eq_true, beq_iff_eq] at hp
  exact (pySorted_eq_self_iff listLe listLe_trans listLe_total _).mp hp.2

/-- A multiscale whose scale vectors decrease from dataset 0 to dataset 1 in
every reasonable "magnitude" sense (lexicographically, and in sum, product
and Euclidean norm) while the spatial components increase. -/
def msTimeDecrease : Multiscale :=
  { name := none,
    axes := [.time "t" none, .space "y" none, .space "x" none],
    datasets := [⟨"0", [.scale true [10, 1, 1]]⟩, ⟨"1", [.scale true [1, 2, 2]]⟩],
    coordinateTransformations := none,
    type := none,
    metadata := none }

/-- C8 counterexample: construction of `msTimeDecrease` succeeds although
dataset 1's full scale vector `[1, 2, 2]` is smaller than dataset 0's
`[10, 2, 2]` — the scale magnitude *decreases* across the list.  Only the
spatial components (positions of the space axes) are checked by the code. -/
theorem multiscale_scale_decrease_accepted :
    msTimeDecrease.construct_valid = true ∧
    listLt [1, 2, 2] [10, 1, 1] = true ∧
    msTimeDecrease.datasets.map Dataset.scaleVals = [[10, 1, 1], [1, 2, 2]] := by
  refine ⟨by decide, by decide, by decide⟩

/-- A small valid multiscale used to witness the sortedness theorem. -/
def msPlain : Multiscale :=
  { name := none,
    axes := [.space "y" none, .space "x" none],
    datasets := [⟨"0", [.scale true [1, 1]]⟩, ⟨"1", [.scale true [2, 2]]⟩],
    coordinateTransformations := none,
    type := none,
    metadata := none }

/-- C8 witness: the sortedness theorem applied at `msPlain`. -/
theorem multiscale_spatial_scales_sorted_witness :
    msPlain.construct_valid = true ∧
      List.Pairwise (fun a b => listLe a b = true) msPlain.spatialScales := by
  have h : msPlain.construct_valid = true := by decide
  exact ⟨h, multiscale_spatial_scales_sorted msPlain h⟩

theorem mem_allTransforms_of_dataset (m : Multiscale) {ds : Dataset} {t : Transform}
    (hds : ds ∈ m.datasets) (ht : t ∈ ds.coordinateTransformations) :
    t ∈ m.allTransforms :=
  List.mem_append_left _
    (List.mem_flatten.mpr ⟨ds.coordinateTransformations, List.mem_map_of_mem _ hds, ht⟩)

theorem mem_allTransforms_global (m : Multiscale) {t : Transform}
    (ht : t ∈ m.globalTransforms) : t ∈ m.allTransforms :=
  List.mem_append_right _ ht

/-- Declarative characterization of successful `Multiscale` construction:
unique axis names; 2-5 axes; 2-3 space axes; at most one time and at most
one channel axis; axes ordered by the `type_order` key (time, then channel
and null-typed custom axes, then space, then custom axes with a named type);
well-formed axis fields; a non-empty datasets list, duplicate-free under
pydantic value equality, whose
paths are valid node names; per-dataset and global transformation lists with
exactly one scale, at most one translation, translation after scale; every
transformation's dimensionality equal to the number of axes; and spatial
scale tuples non-decreasing. -/
def MultiscaleSpec (m : Multiscale) : Prop :=
  (m.axes.map Axis.name).Nodup ∧
  (2 ≤ m.axes.length ∧ m.axes.length ≤ 5) ∧
  (2 ≤ m.axes.countP (fun ax => ax.typeStr == some "space") ∧
    m.axes.countP (fun ax => ax.typeStr == some "space") ≤ 3) ∧
  m.axes.countP (fun ax => ax.typeStr == some "time") ≤ 1 ∧
  m.axes.countP (fun ax => ax.typeStr == some "channel") ≤ 1 ∧
  List.Pairwise (fun a b => axisTypeOrder a.typeStr ≤ axisTypeOrder b.typeStr) m.axes ∧
  (∀ ax ∈ m.axes, ax.WellFormed) ∧
  m.datasets ≠ [] ∧
  (m.datasets.map Dataset.canon).Nodup ∧
  (∀ ds ∈ m.datasets, validNodeName ds.path = true ∧
    TransformsSpec ds.coordinateTransformations) ∧
  (∀ l, m.coordinateTransformations = some (some l) → TransformsSpec l) ∧
  (∀ t ∈ m.allTransforms, t.ndim = m.axes.length) ∧
  List.Pairwise (fun a b => listLe a b = true) m.spatialScales

/-- C1 amended theorem: `Multiscale` construction succeeds iff the
declarative conditions of `MultiscaleSpec` hold. -/
theorem multiscale_construct_valid_iff_spec (m : Multiscale) :
    m.construct_valid = true ↔ MultiscaleSpec m := by
  constructor
  · intro h
    simp only [Multiscale.construct_valid, Bool.and_eq_true] at h
    obtain ⟨⟨⟨hax, hds⟩, hglob⟩, hpost⟩ := h
    simp only [axesListValid, Bool.and_eq_true, decide_eq_true_eq,
      List.all_eq_true] at hax
    obtain ⟨⟨⟨haf, -⟩, hab⟩, hav⟩ := hax
    obtain ⟨hnames, hspace, htime, hchan, horder⟩ := (validate_axes_list_iff m.axes).mp hav
    simp only [datasetsListValid, Bool.and_eq_true, decide_eq_true_eq,
      List.all_eq_true] at hds
    obtain ⟨⟨⟨hdf, hdnodup⟩, hdlen⟩, -⟩ := hds
    simp only [Multiscale.post_validate, Bool.and_eq_true, List.all_eq_true,
      beq_iff_eq] at hpost
    obtain ⟨⟨hpds, hpg⟩, hpsort⟩ := hpost
    refine ⟨hnames, hab, hspace, htime, hchan, horder, ?_, ?_, hdnodup, ?_, ?_, ?_, ?_⟩
    · intro ax hax'
      exact (Axis.fieldsValid_iff ax).mp (haf ax hax')
    · intro hnil
      rw [hnil] at hdlen
      simp at hdlen
    · intro ds hds'
      have hf := hdf ds hds'
      simp only [Dataset.fieldsValid, Bool.and_eq_true] at hf
      obtain ⟨hpath, htl⟩ := hf
      simp only [transformsListValid, Bool.and_eq_true] at htl
      exact ⟨hpath, (validate_transforms_list_iff _).mp htl.2⟩
    · intro l heq
      simp only [Multiscale.globalTransformsValid, heq, transformsListValid,
        Bool.and_eq_true] at hglob
      exact (validate_transforms_list_iff _).mp hglob.2
    · intro t ht
      rcases List.mem_append.mp ht with hl | hr
      · obtain ⟨lst, hlst, htl⟩ := List.mem_flatten.mp hl
        obtain ⟨ds, hds', rfl⟩ := List.mem_map.mp hlst
        exact hpds ds hds' t htl
      · exact hpg t hr
    · exact (pySorted_eq_self_iff listLe listLe_trans listLe_total _).mp hpsort
  · rintro ⟨hnames, hab, hspace, htime, hchan, horder, hwf, hne, hdnodup, hper,
      hglobspec, hndim, hsort⟩
    have htlv : ∀ ts : List Transform, TransformsSpec ts →
        (∀ t ∈ ts, t ∈ m.allTransforms) → transformsListValid ts = true := by
      intro ts hspec hsub
      simp only [transformsListValid, Bool.and_eq_true, List.all_eq_true]
      have hnonempty : 0 < ts.length := by
        obtain ⟨x, hx, -⟩ := List.countP_pos_iff.mp
          (show 0 < ts.countP Transform.isScale by rw [hspec.1]; norm_num)
        exact List.length_pos.mpr (List.ne_nil_of_mem hx)
      refine ⟨⟨?_, by simpa using hnonempty⟩, (validate_transforms_list_iff ts).mpr hspec⟩
      intro t ht
      have hn := hndim t (hsub t ht)
      simp only [Transform.fieldsValid, decide_eq_true_eq]
      omega
    simp only [Multiscale.construct_valid, Bool.and_eq_true]
    refine ⟨⟨⟨?_, ?_⟩, ?_⟩, ?_⟩
    · simp only [axesListValid, Bool.and_eq_true, decide_eq_true_eq, List.all_eq_true]
      exact ⟨⟨⟨fun ax h => (Axis.fieldsValid_iff ax).mpr (hwf ax h),
        List.Nodup.of_map _ hnames⟩, hab⟩,
        (validate_axes_list_iff m.axes).mpr ⟨hnames, hspace, htime, hchan, horder⟩⟩
    · simp only [datasetsListValid, Bool.and_eq_true, decide_eq_true_eq,
        List.all_eq_true]
      have hperfv : ∀ ds ∈ m.datasets, ds.fieldsValid = true := by
        intro ds hds'
        obtain ⟨hpath, hspec⟩ := hper ds hds'
        simp only [Dataset.fieldsValid, Bool.and_eq_true]
        exact ⟨hpath, htlv _ hspec (fun t ht => mem_allTransforms_of_dataset m hds' ht)⟩
      refine ⟨⟨⟨hperfv, hdnodup⟩, by simpa using List.length_pos.mpr hne⟩, ?_⟩
      unfold validate_datasets_list
      have hvals : ∀ v ∈ ((m.datasets.foldl
          (fun acc dt => assocSet acc dt.path dt.firstTransformNdim) []).map Prod.snd),
          v = m.axes.length := by
        intro v hv
        obtain ⟨p, hp, hpv⟩ := List.mem_map.mp hv
        rcases foldl_assocSet_snd Dataset.firstTransformNdim m.datasets [] p hp with
          hin | ⟨dt, hdt, hval⟩
        · exact absurd hin (List.not_mem_nil p)
        · rw [← hpv, hval]
          obtain ⟨-, hspec⟩ := hper dt hdt
          cases hcts : dt.coordinateTransformations with
          | nil =>
            exfalso
            obtain ⟨x, hx, -⟩ := List.countP_pos_iff.mp
              (show 0 < dt.coordinateTransformations.countP Transform.isScale by
                rw [hspec.1]; norm_num)
            rw [hcts] at hx
            exact List.not_mem_nil x hx
          | cons t rest =>
            have htm : t ∈ dt.coordinateTransformations := by rw [hcts]; simp
            have := hndim t (mem_allTransforms_of_dataset m hdt htm)
            simp only [Dataset.firstTransformNdim, hcts]
            exact this
      have hfne : (m.datasets.foldl
          (fun acc dt => assocSet acc dt.path dt.firstTransformNdim) []) ≠ [] :=
        foldl_assocSet_ne_nil Dataset.firstTransformNdim m.datasets [] (Or.inl hne)
      have hvne : ((m.datasets.foldl
          (fun acc dt => assocSet acc dt.path dt.firstTransformNdim) []).map
          Prod.snd) ≠ [] := by
        intro hc
        rw [List.map_eq_nil_iff] at hc
        exact hfne hc
      have hded := dedup_of_all_eq _ m.axes.length hvne hvals
      rw [if_neg (by rw [hded]; simp)]
      simp only [Bool.not_eq_true']
      rw [List.any_eq_false]
      intro v hv
      have := hvals v hv
      simp only [decide_eq_true_eq, not_lt]
      omega
    · cases hcts : m.coordinateTransformations with
      | none => simp [Multiscale.globalTransformsValid, hcts]
      | some o =>
        cases o with
        | none => simp [Multiscale.globalTransformsValid, hcts]
        | some l =>
          simp only [Multiscale.globalTransformsValid, hcts]
          refine htlv l (hglobspec l hcts) ?_
          intro t ht
          refine mem_allTransforms_global m ?_
          simp only [Multiscale.globalTransforms, hcts]
          exact ht
    · simp only [Multiscale.post_validate, Bool.and_eq_true, List.all_eq_true,
        beq_iff_eq]
      refine ⟨⟨?_, ?_⟩,
        (pySorted_eq_self_iff listLe listLe_trans listLe_total _).mpr hsort⟩
      · intro ds hds' t ht
        exact hndim t (mem_allTransforms_of_dataset m hds' ht)
      · intro t ht
        exact hndim t (mem_allTransforms_global m ht)

/-- The ordering key the claim describes: `[time?, channel/custom?, space...]`. -/
def claimAxisKey : Axis → ℕ
  | .time _ _ => 0
  | .channel _ _ => 1
  | .custom _ _ _ => 1
  | .space _ _ => 2

/-- C1's conditions as the claim states them: 2-3 space axes, at most one
time axis, at most one axis of type channel *or custom*, axes ordered
`[time?, channel/custom?, space...]`, every transformation's dimensionality
equal to the number of axes, and at most 5 axes. -/
def ClaimC1Conditions (m : Multiscale) : Prop :=
  (2 ≤ m.axes.countP (fun ax => ax.typeStr == some "space") ∧
    m.axes.countP (fun ax => ax.typeStr == some "space") ≤ 3) ∧
  m.axes.countP (fun ax => ax.typeStr == some "time") ≤ 1 ∧
  m.axes.countP (fun ax => (ax.typeStr == some "channel") || ax.isCustom) ≤ 1 ∧
  List.Pairwise (fun a b => claimAxisKey a ≤ claimAxisKey b) m.axes ∧
  (∀ t ∈ m.allTransforms, t.ndim = m.axes.length) ∧
  m.axes.length ≤ 5

/-- A multiscale with two custom (null-typed) axes followed by two space
axes. -/
def msTwoCustom : Multiscale :=
  { name := none,
    axes := [.custom "a" none none, .custom "b" none none,
      .space "x" none, .space "y" none],
    datasets := [⟨"0", [.scale true [1, 1, 1, 1]]⟩],
    coordinateTransformations := none,
    type := none,
    metadata := none }

/-- C1 counterexample: construction of `msTwoCustom` succeeds although the
claim's conditions do not hold — it has two custom axes, violating "at most
one axis of type channel or custom".  The code only bounds the count of
axes with type exactly "channel". -/
theorem multiscale_two_custom_axes_accepted :
    msTwoCustom.construct_valid = true ∧ ¬ ClaimC1Conditions msTwoCustom := by
  constructor
  · decide
  · intro h
    have := h.2.2.1
    revert this
    decide

/-! ## Plates (`src/yaozarrs/v05/_plate.py`)

`rowIndex` / `columnIndex` are `NonNegativeInt`, modelled as `ℕ` (the
claim's `0 ≤ w.rowIndex` is carried by the type). -/

/-- The pattern `^[A-Za-z0-9]+$` on `Row.name` / `Column.name`. -/
def alnumName (s : String) : Bool :=
  !s.data.isEmpty && s.data.all (fun c => c.isAlphanum)

/-- The pattern `^[A-Za-z0-9]+/[A-Za-z0-9]+$` on `PlateWell.path`. -/
def plateWellPathValid (s : String) : Bool :=
  match splitOnSlash s.data with
  | [a, b] =>
    !a.isEmpty && a.all (fun c => c.isAlphanum) &&
      (!b.isEmpty && b.all (fun c => c.isAlphanum))
  | _ => false

/-- A plate `Column`. -/
structure Column where
  name : String
  deriving DecidableEq

/-- A plate `Row`. -/
structure Row where
  name : String
  deriving DecidableEq

/-- A `PlateWell` reference: path plus grid position. -/
structure PlateWell where
  path : String
  rowIndex : ℕ
  columnIndex : ℕ
  deriving DecidableEq

/-- An `Acquisition`. -/
structure Acquisition where
  id : ℕ
  maximumfieldcount : Option (Option ℕ)
  name : Option (Option String)
  description : Option (Option String)
  starttime : Option (Option ℕ)
  endtime : Option (Option ℕ)
  deriving DecidableEq

/-- Per-field validation of an `Acquisition` (`maximumfieldcount` is a
`PositiveInt`). -/
def Acquisition.fieldsValid (a : Acquisition) : Bool :=
  match a.maximumfieldcount with
  | some (some n) => 1 ≤ n
  | _ => true

/-- A `PlateDef`. -/
structure PlateDef where
  columns : List Column
  rows : List Row
  wells : List PlateWell
  acquisitions : Option (Option (List Acquisition))
  field_count : Option (Option ℕ)
  name : Option (Option String)
  deriving DecidableEq

/-- Per-field validation of a `PlateDef`: name/path patterns, unique items
and `MinLen(1)` on columns/rows/wells, acquisition fields, positive
`field_count`. -/
def PlateDef.fieldsValid (pd : PlateDef) : Bool :=
  pd.columns.all (fun c => alnumName c.name) && decide pd.columns.Nodup &&
    1 ≤ pd.columns.length &&
  (pd.rows.all (fun r => alnumName r.name) && decide pd.rows.Nodup &&
    1 ≤ pd.rows.length) &&
  (pd.wells.all (fun w => plateWellPathValid w.path) && decide pd.wells.Nodup &&
    1 ≤ pd.wells.length) &&
  (match pd.acquisitions with
   | some (some l) => l.all Acquisition.fieldsValid
   | _ => true) &&
  (match pd.field_count with
   | some (some n) => 1 ≤ n
   | _ => true)

/-- The `for well in self.wells` loop of `_validate_well_indices`: raise on
the first well whose `rowIndex` (checked first) or `columnIndex` is out of
bounds. -/
def validate_well_indices_loop (rowsLen colsLen : ℕ) :
    List PlateWell → Except String Unit
  | [] => Except.ok ()
  | w :: ws =>
    if rowsLen ≤ w.rowIndex then
      Except.error ("Well " ++ w.path ++ (" has rowIndex " ++ toString w.rowIndex ++
        " but only " ++ toString rowsLen ++ " rows exist"))
    else if colsLen ≤ w.columnIndex then
      Except.error ("Well " ++ w.path ++ (" has columnIndex " ++
        toString w.columnIndex ++ " but only " ++ toString colsLen ++
        " columns exist"))
    else validate_well_indices_loop rowsLen colsLen ws

/-- `PlateDef._validate_well_indices`. -/
def PlateDef.validate_well_indices (pd : PlateDef) : Except String Unit :=
  validate_well_indices_loop pd.rows.length pd.columns.length pd.wells

/-- `PlateDef` construction: field validation, then the after-validator
`_validate_well_indices`. -/
def PlateDef.construct (pd : PlateDef) : Except String Unit :=
  if pd.fieldsValid then pd.validate_well_indices
  else Except.error "field validation failed"

theorem validate_well_indices_loop_spec (rowsLen colsLen : ℕ) :
    ∀ ws : List PlateWell,
      (validate_well_indices_loop rowsLen colsLen ws = Except.ok () ↔
        ∀ w ∈ ws, w.rowIndex < rowsLen ∧ w.columnIndex < colsLen) ∧
      (∀ e, validate_well_indices_loop rowsLen colsLen ws = Except.error e →
        ∃ w ∈ ws, (rowsLen ≤ w.rowIndex ∨ colsLen ≤ w.columnIndex) ∧
          w.path.data <:+: e.data) := by
  intro ws
  induction ws with
  | nil =>
    constructor
    · simp [validate_well_indices_loop]
    · intro e he
      cases he
  | cons w ws ih =>
    rw [validate_well_indices_loop]
    by_cases hr : rowsLen ≤ w.rowIndex
    · rw [if_pos hr]
      constructor
      · constructor
        · intro h; cases h
        · intro h
          have := (h w (List.mem_cons_self w ws)).1
          omega
      · intro e he
        refine ⟨w, List.mem_cons_self w ws, Or.inl hr, ?_⟩
        have heq : e = "Well " ++ w.path ++ (" has rowIndex " ++
            toString w.rowIndex ++ " but only " ++ toString rowsLen ++
            " rows exist") := (Except.error.inj he).symm
        rw [heq, String.data_append, String.data_append]
        exact List.infix_append _ _ _
    · rw [if_neg hr]
      by_cases hc : colsLen ≤ w.columnIndex
      · rw [if_pos hc]
        constructor
        · constructor
          · intro h; cases h
          · intro h
            have := (h w (List.mem_cons_self w ws)).2
            omega
        · intro e he
          refine ⟨w, List.mem_cons_self w ws, Or.inr hc, ?_⟩
          have heq : e = "Well " ++ w.path ++ (" has columnIndex " ++
              toString w.columnIndex ++ " but only " ++ toString colsLen ++
              " columns exist") := (Except.error.inj he).symm
          rw [heq, String.data_append, String.data_append]
          exact List.infix_append _ _ _
      · rw [if_neg hc]
        constructor
        · rw [ih.1]
          constructor
          · intro h w' hw'
            rcases List.mem_cons.mp hw' with rfl | hw''
            · omega
            · exact h w' hw''
          · intro h w' hw'
            exact h w' (List.mem_cons_of_mem w hw')
        · intro e he
          obtain ⟨w', hw', hbad, hinf⟩ := ih.2 e he
          exact ⟨w', List.mem_cons_of_mem w hw', hbad, hinf⟩

/-- C5: for every plate definition whose per-field content validates,
construction succeeds iff every well's `rowIndex` is below the number of
rows and its `columnIndex` below the number of columns; and when
construction fails, the error message contains the path of an out-of-bounds
well. -/
theorem plateDef_construct_iff_well_indices (pd : PlateDef)
    (hf : pd.fieldsValid = true) :
    (pd.construct = Except.ok () ↔
      ∀ w ∈ pd.wells, w.rowIndex < pd.rows.length ∧
        w.columnIndex < pd.columns.length) ∧
    (∀ e, pd.construct = Except.error e →
      ∃ w ∈ pd.wells, (pd.rows.length ≤ w.rowIndex ∨
        pd.columns.length ≤ w.columnIndex) ∧ w.path.data <:+: e.data) := by
  unfold PlateDef.construct
  rw [if_pos hf]
  exact validate_well_indices_loop_spec pd.rows.length pd.columns.length pd.wells

/-- A 2-row, 2-column plate with one well in bounds. -/
def pdOk : PlateDef :=
  { columns := [⟨"1"⟩, ⟨"2"⟩],
    rows := [⟨"A"⟩, ⟨"B"⟩],
    wells := [⟨"A/1", 0, 0⟩],
    acquisitions := none,
    field_count := none,
    name := none }

/-- The same plate with one out-of-bounds well. -/
def pdBad : PlateDef :=
  { columns := [⟨"1"⟩, ⟨"2"⟩],
    rows := [⟨"A"⟩, ⟨"B"⟩],
    wells := [⟨"C/7", 5, 0⟩],
    acquisitions := none,
    field_count := none,
    name := none }

/-- C5 witness: the characterization applied at `pdOk` (construction
succeeds) and at `pdBad` (the error message mentions the offending well's
path). -/
theorem plateDef_construct_iff_well_indices_witness :
    pdOk.construct = Except.ok () ∧
      ∃ w ∈ pdBad.wells, (pdBad.rows.length ≤ w.rowIndex ∨
        pdBad.columns.length ≤ w.columnIndex) ∧
          w.path.data <:+:
            ("Well C/7 has rowIndex 5 but only 2 rows exist" : String).data := by
  constructor
  · exact (plateDef_construct_iff_well_indices pdOk (by decide)).1.mpr (by decide)
  · exact (plateDef_construct_iff_well_indices pdBad (by decide)).2
      "Well C/7 has rowIndex 5 but only 2 rows exist" (by rfl)

/-! ## Serialization and parsing (pydantic wire semantics)

`serialize` models `model_dump_json(exclude_unset=True, by_alias=True)`:
emit exactly the explicitly-set fields, under their wire aliases, in field
declaration order.  `parse` models pydantic validation: read each field by
its alias (or, with `populate_by_name`, its Python name), validate the
value, leave absent optional fields unset.  Unknown keys are ignored
(`extra="ignore"`), except in the `extra="allow"` Omero models where they
are collected as extras. -/

/-- Key lookup in a JSON object (Python dict access). -/
def findKey (kvs : List (String × Json)) (key : String) : Option Json :=
  kvs.lookup key

/-- Lookup honoring `populate_by_name`: the wire alias first, then the
Python field name. -/
def findAliased (kvs : List (String × Json)) (al nm : String) : Option Json :=
  match findKey kvs al with
  | some j => some j
  | none => findKey kvs nm

/-- Parse a JSON string. -/
def Json.asStr : Json → Except String String
  | .str s => .ok s
  | _ => .error "expected string"

/-- Parse a JSON boolean. -/
def Json.asBool : Json → Except String Bool
  | .bool b => .ok b
  | _ => .error "expected boolean"

/-- Parse a JSON number (Python `float`). -/
def Json.asNum : Json → Except String ℚ
  | .num q => .ok q
  | _ => .error "expected number"

/-- Parse a JSON integer (Python `int`). -/
def Json.asInt : Json → Except String ℤ
  | .num q => if q.den = 1 then .ok q.num else .error "expected integer"
  | _ => .error "expected integer"

/-- Parse a JSON non-negative integer (`NonNegativeInt`). -/
def Json.asNat : Json → Except String ℕ
  | .num q =>
    if q.den = 1 ∧ 0 ≤ q.num then .ok q.num.toNat
    else .error "expected nonnegative integer"
  | _ => .error "expected nonnegative integer"

/-- Parse a JSON array. -/
def Json.asArr : Json → Except String (List Json)
  | .arr xs => .ok xs
  | _ => .error "expected array"

/-- Parse a JSON object. -/
def Json.asObj : Json → Except String (List (String × Json))
  | .obj kvs => .ok kvs
  | _ => .error "expected object"

/-- Parse every element of a JSON array. -/
def parseListWith {α : Type} (p : Json → Except String α) :
    List Json → Except String (List α)
  | [] => .ok []
  | x :: xs =>
    match p x with
    | .error e => .error e
    | .ok a =>
      match parseListWith p xs with
      | .error e => .error e
      | .ok as => .ok (a :: as)

/-- Decode a required field value. -/
def decodeReq {α : Type} (p : Json → Except String α) :
    Option Json → Except String α
  | none => .error "missing required field"
  | some j => p j

/-- Decode an optional non-nullable field (e.g. a `Literal` with default). -/
def decodeOpt {α : Type} (p : Json → Except String α) :
    Option Json → Except String (Option α)
  | none => .ok none
  | some j =>
    match p j with
    | .error e => .error e
    | .ok a => .ok (some a)

/-- Decode an optional nullable field (`T | None = None`): absent means
unset, `null` means explicitly null. -/
def decodeOptNull {α : Type} (p : Json → Except String α) :
    Option Json → Except String (Option (Option α))
  | none => .ok none
  | some .null => .ok (some none)
  | some j =>
    match p j with
    | .error e => .error e
    | .ok a => .ok (some (some a))

/-- Serialized form of an optional field: no entry when unset. -/
def optEntry (key : String) : Option Json → List (String × Json)
  | none => []
  | some j => [(key, j)]

theorem findKey_entry_self (key : String) (j : Json) (rest : List (String × Json)) :
    findKey (optEntry key (some j) ++ rest) key = some j := by
  simp [optEntry, findKey, List.lookup]

theorem findKey_entry_none (key : String) (rest : List (String × Json)) :
    findKey (optEntry key none ++ rest) key = findKey rest key := rfl

theorem findKey_entry_ne (key key2 : String) (oj : Option Json)
    (rest : List (String × Json)) (h : key ≠ key2) :
    findKey (optEntry key2 oj ++ rest) key = findKey rest key := by
  cases oj with
  | none => rfl
  | some j => simp [optEntry, findKey, List.lookup, beq_false_of_ne h]

theorem findKey_nil (key : String) : findKey [] key = none := rfl

theorem decodeReq_roundtrip {α : Type} (p : Json → Except String α) (f : α → Json)
    (a : α) (hp : p (f a) = .ok a) : decodeReq p (some (f a)) = .ok a := hp

/-- Parse a string that must equal the literal `"0.5"` (the `version`
fields). -/
def Json.asVersion05 : Json → Except String String
  | .str "0.5" => .ok "0.5"
  | _ => .error "expected version 0.5"

/-- Parse a number that must equal the literal `3`
(`bioformats2raw.layout`). -/
def Json.asLayout3 : Json → Except String ℕ
  | .num 3 => .ok 3
  | _ => .error "expected layout 3"

/-! ### Axes on the wire -/

/-- Parse a space unit (`SpaceUnits` literal union). -/
def Json.asSpaceUnit : Json → Except String String
  | .str s => if spaceUnits.contains s then .ok s else .error "invalid space unit"
  | _ => .error "expected string"

/-- Parse a time unit (`TimeUnits` literal union). -/
def Json.asTimeUnit : Json → Except String String
  | .str s => if timeUnits.contains s then .ok s else .error "invalid time unit"
  | _ => .error "expected string"

/-- `_axis_discriminator` on a raw dict: the `type` value when it is one of
the three named tags, else "custom". -/
def axisDiscriminator (kvs : List (String × Json)) : String :=
  match findKey kvs "type" with
  | some (.str s) => if s = "space" || s = "time" || s = "channel" then s else "custom"
  | _ => "custom"

/-- Validate as `SpaceAxis` (the discriminator already guarantees
`type == "space"`). -/
def parseSpaceAxis (kvs : List (String × Json)) : Except String Axis :=
  match decodeReq Json.asStr (findKey kvs "name") with
  | .error e => .error e
  | .ok name =>
    match decodeOptNull Json.asSpaceUnit (findKey kvs "unit") with
    | .error e => .error e
    | .ok unit => .ok (.space name unit)

/-- Validate as `TimeAxis`. -/
def parseTimeAxis (kvs : List (String × Json)) : Except String Axis :=
  match decodeReq Json.asStr (findKey kvs "name") with
  | .error e => .error e
  | .ok name =>
    match decodeOptNull Json.asTimeUnit (findKey kvs "unit") with
    | .error e => .error e
    | .ok unit => .ok (.time name unit)

/-- Validate as `ChannelAxis` (any string unit). -/
def parseChannelAxis (kvs : List (String × Json)) : Except String Axis :=
  match decodeReq Json.asStr (findKey kvs "name") with
  | .error e => .error e
  | .ok name =>
    match decodeOptNull Json.asStr (findKey kvs "unit") with
    | .error e => .error e
    | .ok unit => .ok (.channel name unit)

/-- Validate as `CustomAxis` (free-form `type` and `unit`). -/
def parseCustomAxis (kvs : List (String × Json)) : Except String Axis :=
  match decodeReq Json.asStr (findKey kvs "name") with
  | .error e => .error e
  | .ok name =>
    match decodeOptNull Json.asStr (findKey kvs "type") with
    | .error e => .error e
    | .ok t =>
      match decodeOptNull Json.asStr (findKey kvs "unit") with
      | .error e => .error e
      | .ok unit => .ok (.custom name t unit)

/-- Parse one axis through the discriminated union. -/
def parseAxis (j : Json) : Except String Axis :=
  match j with
  | .obj kvs =>
    if axisDiscriminator kvs = "space" then parseSpaceAxis kvs
    else if axisDiscriminator kvs = "time" then parseTimeAxis kvs
    else if axisDiscriminator kvs = "channel" then parseChannelAxis kvs
    else parseCustomAxis kvs
  | _ => .error "expected axis object"

/-- Parse a float list with the `MinLen(2)` constraint. -/
def Json.asFloatVec (j : Json) : Except String (List ℚ) :=
  match j with
  | .arr xs =>
    match parseListWith Json.asNum xs with
    | .error e => .error e
    | .ok v => if v.length < 2 then .error "too short" else .ok v
  | _ => .error "expected array"

/-- Validate as `ScaleTransformation`: optional literal `type`, required
`scale` vector; `typeSet` records whether `type` was supplied. -/
def parseScaleTransform (kvs : List (String × Json)) : Except String Transform :=
  match decodeOpt (fun j =>
      match j with
      | .str "scale" => .ok "scale"
      | _ => .error "expected scale tag") (findKey kvs "type") with
  | .error e => .error e
  | .ok t =>
    match decodeReq Json.asFloatVec (findKey kvs "scale") with
    | .error e => .error e
    | .ok v => .ok (.scale t.isSome v)

/-- Validate as `TranslationTransformation`. -/
def parseTranslationTransform (kvs : List (String × Json)) : Except String Transform :=
  match decodeOpt (fun j =>
      match j with
      | .str "translation" => .ok "translation"
      | _ => .error "expected translation tag") (findKey kvs "type") with
  | .error e => .error e
  | .ok t =>
    match decodeReq Json.asFloatVec (findKey kvs "translation") with
    | .error e => .error e
    | .ok v => .ok (.translation t.isSome v)

/-- Parse one transformation through the
`ScaleTransformation | TranslationTransformation` union (left to right). -/
def parseTransform (j : Json) : Except String Transform :=
  match j with
  | .obj kvs =>
    match parseScaleTransform kvs with
    | .ok t => .ok t
    | .error _ => parseTranslationTransform kvs
  | _ => .error "expected transformation object"

/-- Whether a JSON value is an object (a Python `dict`). -/
def Json.isObjB : Json → Bool
  | .obj _ => true
  | _ => false

/-- Parse a `dict`-typed field, kept as raw JSON. -/
def Json.asDict : Json → Except String Json
  | .obj kvs => .ok (.obj kvs)
  | _ => .error "expected object"

/-- Parse a `Dataset`.  The node-name check on `path` and the
transforms-list validation are applied by the enclosing `Multiscale` model
check (`Multiscale.construct_valid`), matching the overall accept/reject
behavior of the pydantic pipeline. -/
def parseDataset (j : Json) : Except String Dataset :=
  match j with
  | .obj kvs =>
    match decodeReq Json.asStr (findKey kvs "path") with
    | .error e => .error e
    | .ok path =>
      match decodeReq (fun j =>
          match j with
          | .arr xs => parseListWith parseTransform xs
          | _ => .error "expected array") (findKey kvs "coordinateTransformations") with
      | .error e => .error e
      | .ok cts => .ok ⟨path, cts⟩
  | _ => .error "expected dataset object"

/-- Parse a `Multiscale`: extract the fields, then run the construction
validators (`AxesList`, `DatasetsList`, `CoordinateTransformsList`,
`_post_validate`). -/
def parseMultiscale (j : Json) : Except String Multiscale :=
  match j with
  | .obj kvs =>
    match decodeOptNull Json.asStr (findKey kvs "name") with
    | .error e => .error e
    | .ok name =>
      match decodeReq (fun j =>
          match j with
          | .arr xs => parseListWith parseAxis xs
          | _ => .error "expected array") (findKey kvs "axes") with
      | .error e => .error e
      | .ok axes =>
        match decodeReq (fun j =>
            match j with
            | .arr xs => parseListWith parseDataset xs
            | _ => .error "expected array") (findKey kvs "datasets") with
        | .error e => .error e
        | .ok datasets =>
          match decodeOptNull (fun j =>
              match j with
              | .arr xs => parseListWith parseTransform xs
              | _ => .error "expected array")
              (findKey kvs "coordinateTransformations") with
          | .error e => .error e
          | .ok cts =>
            match decodeOptNull Json.asStr (findKey kvs "type") with
            | .error e => .error e
            | .ok ty =>
              match decodeOptNull Json.asDict (findKey kvs "metadata") with
              | .error e => .error e
              | .ok metadata =>
                let m : Multiscale := ⟨name, axes, datasets, cts, ty, metadata⟩
                if m.construct_valid then .ok m
                else .error "invalid multiscale"
  | _ => .error "expected multiscale object"

/-- Wire validity of a `Multiscale` value: construction succeeded, and the
`metadata` dict (if set and non-null) is a JSON object — in Python the field
is `dict`-typed, so only objects inhabit it. -/
def Multiscale.wireValid (m : Multiscale) : Bool :=
  m.construct_valid &&
    (match m.metadata with
     | some (some j) => j.isObjB
     | _ => true)

/-- An `OmeroWindow`: all four intensity bounds are required floats. -/
structure OmeroWindow where
  start : ℚ
  min : ℚ
  «end» : ℚ
  max : ℚ
  deriving DecidableEq

/-- Uppercase hexadecimal digit (`[0-9A-F]`). -/
def isHexUpper (c : Char) : Bool :=
  ('0' ≤ c && c ≤ '9') || ('A' ≤ c && c ≤ 'F')

/-- The `len(value) == 3` shorthand-doubling step of `_valid_hex`. -/
def hexExpand (cs : List Char) : List Char :=
  if cs.length = 3 then (cs.map (fun c => [c, c])).flatten else cs

/-- The final length/regex check of `_valid_hex`. -/
def hexFinish (cs : List Char) : Except String String :=
  if cs.length == 6 && cs.all isHexUpper then .ok (String.mk cs)
  else .error ("Invalid hex color code: " ++ String.mk cs)

/-- `_valid_hex`: strip leading `#`, uppercase, expand three-digit
shorthand, then require exactly six hex digits. -/
def normalizeHex (s : String) : Except String String :=
  hexFinish (hexExpand ((s.data.dropWhile (fun c => c == '#')).map Char.toUpper))

/-- A normalized hex color: exactly six uppercase hex digits. -/
def validHexColor (s : String) : Bool :=
  s.data.length == 6 && s.data.all isHexUpper

/-- Parse an `OmeroWindow`. -/
def parseOmeroWindow (j : Json) : Except String OmeroWindow :=
  match j with
  | .obj kvs =>
    match decodeReq Json.asNum (findKey kvs "start") with
    | .error e => .error e
    | .ok s =>
      match decodeReq Json.asNum (findKey kvs "min") with
      | .error e => .error e
      | .ok mn =>
        match decodeReq Json.asNum (findKey kvs "end") with
        | .error e => .error e
        | .ok en =>
          match decodeReq Json.asNum (findKey kvs "max") with
          | .error e => .error e
          | .ok mx => .ok ⟨s, mn, en, mx⟩
  | _ => .error "expected window object"

/-- An `OmeroChannel`.  `color` stores the value produced by the
`_valid_hex` after-validator. -/
structure OmeroChannel where
  window : OmeroWindow
  label : Option (Option String)
  family : Option (Option String)
  color : String
  active : Option (Option Bool)
  inverted : Option (Option Bool)
  coefficient : Option (Option ℚ)
  deriving DecidableEq

/-- A constructed channel's `color` is normalized (six uppercase hex
digits), as guaranteed by the `_valid_hex` validator. -/
def OmeroChannel.fieldsValid (c : OmeroChannel) : Bool := validHexColor c.color

/-- Parse a color string through the `_valid_hex` validator. -/
def Json.asHexColor : Json → Except String String
  | .str s => normalizeHex s
  | _ => .error "expected string"

/-- Parse an `OmeroChannel`. -/
def parseOmeroChannel (j : Json) : Except String OmeroChannel :=
  match j with
  | .obj kvs =>
    match decodeReq parseOmeroWindow (findKey kvs "window") with
    | .error e => .error e
    | .ok window =>
      match decodeOptNull Json.asStr (findKey kvs "label") with
      | .error e => .error e
      | .ok label =>
        match decodeOptNull Json.asStr (findKey kvs "family") with
        | .error e => .error e
        | .ok family =>
          match decodeReq Json.asHexColor (findKey kvs "color") with
          | .error e => .error e
          | .ok color =>
            match decodeOptNull Json.asBool (findKey kvs "active") with
            | .error e => .error e
            | .ok active =>
              match decodeOptNull Json.asBool (findKey kvs "inverted") with
              | .error e => .error e
              | .ok inverted =>
                match decodeOptNull Json.asNum (findKey kvs "coefficient") with
                | .error e => .error e
                | .ok coefficient =>
                  .ok ⟨window, label, family, color, active, inverted, coefficient⟩
  | _ => .error "expected channel object"

/-- Keys not listed here land in an `OmeroRenderingDefs` model's extra
fields (`extra="allow"`). -/
def rdefsKnownKeys : List String := ["model", "defaultT", "defaultZ", "projection"]

/-- `OmeroRenderingDefs` (`extra="allow"`): declared fields plus the extra
key-value pairs kept by pydantic, in document order. -/
structure OmeroRenderingDefs where
  model : Option (Option String)
  defaultT : Option (Option ℤ)
  defaultZ : Option (Option ℤ)
  projection : Option (Option String)
  extras : List (String × Json)
  deriving DecidableEq

/-- Parse `OmeroRenderingDefs`: the declared fields, collecting every other
key into the extras. -/
def parseOmeroRenderingDefs (j : Json) : Except String OmeroRenderingDefs :=
  match j with
  | .obj kvs =>
    match decodeOptNull Json.asStr (findKey kvs "model") with
    | .error e => .error e
    | .ok model =>
      match decodeOptNull Json.asInt (findKey kvs "defaultT") with
      | .error e => .error e
      | .ok defaultT =>
        match decodeOptNull Json.asInt (findKey kvs "defaultZ") with
        | .error e => .error e
        | .ok defaultZ =>
          match decodeOptNull Json.asStr (findKey kvs "projection") with
          | .error e => .error e
          | .ok projection =>
            .ok ⟨model, defaultT, defaultZ, projection,
              kvs.filter (fun kv => !(rdefsKnownKeys.contains kv.1))⟩
  | _ => .error "expected rdefs object"

/-- A stored extras list never shadows a declared field: pydantic routes a
declared key to its field, so `__pydantic_extra__` holds only other keys. -/
def extrasValid (known : List String) (extras : List (String × Json)) : Bool :=
  extras.all (fun kv => !(known.contains kv.1))

def OmeroRenderingDefs.wireValid (r : OmeroRenderingDefs) : Bool :=
  extrasValid rdefsKnownKeys r.extras

/-- Keys not listed here land in an `Omero` model's extra fields. -/
def omeroKnownKeys : List String := ["channels", "id", "name", "version", "rdefs"]

/-- `Omero` (`extra="allow"`). -/
structure Omero where
  channels : List OmeroChannel
  id : Option (Option ℤ)
  name : Option (Option String)
  version : Option (Option String)
  rdefs : Option (Option OmeroRenderingDefs)
  extras : List (String × Json)
  deriving DecidableEq

/-- Parse `Omero`. -/
def parseOmero (j : Json) : Except String Omero :=
  match j with
  | .obj kvs =>
    match decodeReq (fun j =>
        match j with
        | .arr xs => parseListWith parseOmeroChannel xs
        | _ => .error "expected array") (findKey kvs "channels") with
    | .error e => .error e
    | .ok channels =>
      match decodeOptNull Json.asInt (findKey kvs "id") with
      | .error e => .error e
      | .ok i =>
        match decodeOptNull Json.asStr (findKey kvs "name") with
        | .error e => .error e
        | .ok name =>
          match decodeOptNull Json.asStr (findKey kvs "version") with
          | .error e => .error e
          | .ok version =>
            match decodeOptNull parseOmeroRenderingDefs (findKey kvs "rdefs") with
            | .error e => .error e
            | .ok rdefs =>
              .ok ⟨channels, i, name, version, rdefs,
                kvs.filter (fun kv => !(omeroKnownKeys.contains kv.1))⟩
  | _ => .error "expected omero object"

/-- Wire validity of an `Omero` value: channel colors normalized, extras do
not shadow declared keys, nested rdefs valid. -/
def Omero.wireValid (o : Omero) : Bool :=
  o.channels.all OmeroChannel.fieldsValid &&
    extrasValid omeroKnownKeys o.extras &&
    (match o.rdefs with
     | some (some r) => r.wireValid
     | _ => true)

/-- A `LabelColor`: a float `label_value` (wire alias `label-value`) and an
optional RGBA quadruple of 8-bit ints. -/
structure LabelColor where
  label_value : ℚ
  rgba : Option (Option (List ℕ))
  deriving DecidableEq

/-- Field validity: a set, non-null `rgba` has exactly four entries, each at
most 255 (`Len(4, 4)`, `Interval(ge=0, le=255)`; nonnegativity is carried by
`ℕ`). -/
def LabelColor.fieldsValid (c : LabelColor) : Bool :=
  match c.rgba with
  | some (some l) => l.length == 4 && l.all (fun n => n ≤ 255)
  | _ => true

/-- Parse an `Int8bit` (`0 ≤ n ≤ 255`). -/
def Json.asInt8bit (j : Json) : Except String ℕ :=
  match Json.asNat j with
  | .error e => .error e
  | .ok n => if n ≤ 255 then .ok n else .error "expected value at most 255"

/-- Parse an RGBA quadruple. -/
def Json.asRgba (j : Json) : Except String (List ℕ) :=
  match j with
  | .arr xs =>
    match parseListWith Json.asInt8bit xs with
    | .error e => .error e
    | .ok l => if l.length == 4 then .ok l else .error "expected four entries"
  | _ => .error "expected array"

/-- Parse a `LabelColor` (accepting the alias or the field name, per
`populate_by_name`). -/
def parseLabelColor (j : Json) : Except String LabelColor :=
  match j with
  | .obj kvs =>
    match decodeReq Json.asNum (findAliased kvs "label-value" "label_value") with
    | .error e => .error e
    | .ok v =>
      match decodeOptNull Json.asRgba (findKey kvs "rgba") with
      | .error e => .error e
      | .ok rgba => .ok ⟨v, rgba⟩
  | _ => .error "expected color object"

/-- A `LabelProperty`: an int `label_value` (wire alias `label-value`);
extra per-label keys are dropped by `extra="ignore"`. -/
structure LabelProperty where
  label_value : ℤ
  deriving DecidableEq

/-- Parse a `LabelProperty`. -/
def parseLabelProperty (j : Json) : Except String LabelProperty :=
  match j with
  | .obj kvs =>
    match decodeReq Json.asInt (findAliased kvs "label-value" "label_value") with
    | .error e => .error e
    | .ok v => .ok ⟨v⟩
  | _ => .error "expected property object"

/-- A `LabelSource`. -/
structure LabelSource where
  image : Option (Option String)
  deriving DecidableEq

/-- Parse a `LabelSource`. -/
def parseLabelSource (j : Json) : Except String LabelSource :=
  match j with
  | .obj kvs =>
    match decodeOptNull Json.asStr (findKey kvs "image") with
    | .error e => .error e
    | .ok image => .ok ⟨image⟩
  | _ => .error "expected source object"

/-- Canonical form of a `LabelColor` under pydantic `__eq__`. -/
def LabelColor.canon (c : LabelColor) : LabelColor :=
  ⟨c.label_value, some c.rgba.join⟩

/-- An `ImageLabel`. -/
structure ImageLabel where
  colors : Option (Option (List LabelColor))
  properties : Option (Option (List LabelProperty))
  source : Option (Option LabelSource)
  version : Option (Option String)
  deriving DecidableEq

/-- Wire validity: set, non-null `colors`/`properties` lists are non-empty,
duplicate-free (`UniqueList` compares validated models, and pydantic model
equality is field equality) and per-item valid; a set, non-null `version`
is the literal `"0.5"`. -/
def ImageLabel.wireValid (il : ImageLabel) : Bool :=
  (match il.colors with
   | some (some l) =>
     l.all LabelColor.fieldsValid && 1 ≤ l.length &&
       decide (l.map LabelColor.canon).Nodup
   | _ => true) &&
  (match il.properties with
   | some (some l) => 1 ≤ l.length && decide l.Nodup
   | _ => true) &&
  (match il.version with
   | some (some v) => v == "0.5"
   | _ => true)

/-- Parse the `colors` list: per-item validation, then `UniqueList` and
`MinLen(1)`. -/
def parseColorsList (j : Json) : Except String (List LabelColor) :=
  match j with
  | .arr xs =>
    match parseListWith parseLabelColor xs with
    | .error e => .error e
    | .ok l =>
      if l.length < 1 then .error "colors: list is too short"
      else if (l.map LabelColor.canon).Nodup then .ok l
      else .error "colors: items are not unique"
  | _ => .error "expected array"

/-- Parse the `properties` list. -/
def parsePropsList (j : Json) : Except String (List LabelProperty) :=
  match j with
  | .arr xs =>
    match parseListWith parseLabelProperty xs with
    | .error e => .error e
    | .ok l =>
      if l.length < 1 then .error "properties: list is too short"
      else if l.Nodup then .ok l else .error "properties: items are not unique"
  | _ => .error "expected array"

/-- Parse an `ImageLabel`. -/
def parseImageLabel (j : Json) : Except String ImageLabel :=
  match j with
  | .obj kvs =>
    match decodeOptNull parseColorsList (findKey kvs "colors") with
    | .error e => .error e
    | .ok colors =>
      match decodeOptNull parsePropsList (findKey kvs "properties") with
      | .error e => .error e
      | .ok properties =>
        match decodeOptNull parseLabelSource (findKey kvs "source") with
        | .error e => .error e
        | .ok source =>
          match decodeOptNull Json.asVersion05 (findKey kvs "version") with
          | .error e => .error e
          | .ok version => .ok ⟨colors, properties, source, version⟩
  | _ => .error "expected image-label object"

/-- An `Image`: one or more multiscale pyramids plus optional OMERO hints. -/
structure Image where
  version : Option String
  multiscales : List Multiscale
  omero : Option (Option Omero)
  deriving DecidableEq

/-- Wire validity of an `Image`. -/
def Image.wireValid (i : Image) : Bool :=
  (match i.version with
   | some v => v == "0.5"
   | none => true) &&
  (i.multiscales.all Multiscale.wireValid && 1 ≤ i.multiscales.length &&
    decide (i.multiscales.map Multiscale.canon).Nodup) &&
  (match i.omero with
   | some (some o) => o.wireValid
   | _ => true)

/-- Parse the `multiscales` list: per-item validation, then `UniqueList`
(pydantic model equality) and `MinLen(1)`. -/
def parseMultiscalesList (j : Json) : Except String (List Multiscale) :=
  match j with
  | .arr xs =>
    match parseListWith parseMultiscale xs with
    | .error e => .error e
    | .ok l =>
      if l.length < 1 then .error "multiscales: list is too short"
      else if (l.map Multiscale.canon).Nodup then .ok l
      else .error "multiscales: items are not unique"
  | _ => .error "expected array"

/-- Parse an `Image`. -/
def parseImage (j : Json) : Except String Image :=
  match j with
  | .obj kvs =>
    match decodeOpt Json.asVersion05 (findKey kvs "version") with
    | .error e => .error e
    | .ok version =>
      match decodeReq parseMultiscalesList (findKey kvs "multiscales") with
      | .error e => .error e
      | .ok multiscales =>
        match decodeOptNull parseOmero (findKey kvs "omero") with
        | .error e => .error e
        | .ok omero => .ok ⟨version, multiscales, omero⟩
  | _ => .error "expected image object"

/-- A `LabelImage`: an `Image` plus required `image_label` metadata (wire
alias `image-label`).  Pydantic serializes the inherited fields first. -/
structure LabelImage where
  version : Option String
  multiscales : List Multiscale
  omero : Option (Option Omero)
  image_label : ImageLabel
  deriving DecidableEq

/-- Wire validity of a `LabelImage`. -/
def LabelImage.wireValid (li : LabelImage) : Bool :=
  (match li.version with
   | some v => v == "0.5"
   | none => true) &&
  (li.multiscales.all Multiscale.wireValid && 1 ≤ li.multiscales.length &&
    decide (li.multiscales.map Multiscale.canon).Nodup) &&
  (match li.omero with
   | some (some o) => o.wireValid
   | _ => true) &&
  li.image_label.wireValid

/-- Parse a `LabelImage`. -/
def parseLabelImage (j : Json) : Except String LabelImage :=
  match j with
  | .obj kvs =>
    match decodeOpt Json.asVersion05 (findKey kvs "version") with
    | .error e => .error e
    | .ok version =>
      match decodeReq parseMultiscalesList (findKey kvs "multiscales") with
      | .error e => .error e
      | .ok multiscales =>
        match decodeOptNull parseOmero (findKey kvs "omero") with
        | .error e => .error e
        | .ok omero =>
          match decodeReq parseImageLabel
              (findAliased kvs "image-label" "image_label") with
          | .error e => .error e
          | .ok image_label => .ok ⟨version, multiscales, omero, image_label⟩
  | _ => .error "expected label-image object"

/-- A `LabelsGroup`: version plus the list of label image paths. -/
structure LabelsGroup where
  version : Option String
  labels : List String
  deriving DecidableEq

/-- Wire validity of a `LabelsGroup`. -/
def LabelsGroup.wireValid (g : LabelsGroup) : Bool :=
  (match g.version with
   | some v => v == "0.5"
   | none => true) && 1 ≤ g.labels.length

/-- Parse a string list with `MinLen(1)`. -/
def Json.asStrList1 : Json → Except String (List String)
  | .arr xs =>
    match parseListWith Json.asStr xs with
    | .error e => .error e
    | .ok l => if l.length < 1 then .error "list is too short" else .ok l
  | _ => .error "expected array"

/-- Parse a `LabelsGroup`. -/
def parseLabelsGroup (j : Json) : Except String LabelsGroup :=
  match j with
  | .obj kvs =>
    match decodeOpt Json.asVersion05 (findKey kvs "version") with
    | .error e => .error e
    | .ok version =>
      match decodeReq Json.asStrList1 (findKey kvs "labels") with
      | .error e => .error e
      | .ok labels => .ok ⟨version, labels⟩
  | _ => .error "expected labels object"

/-- A `Bf2Raw` marker document (wire alias `bioformats2raw.layout`). -/
structure Bf2Raw where
  version : Option String
  bioformats2raw_layout : ℕ
  deriving DecidableEq

/-- Wire validity of a `Bf2Raw`: the layout marker is the literal `3`. -/
def Bf2Raw.wireValid (b : Bf2Raw) : Bool :=
  (match b.version with
   | some v => v == "0.5"
   | none => true) && b.bioformats2raw_layout == 3

/-- Parse a `Bf2Raw` (`populate_by_name`: the dotted alias or the
underscored field name). -/
def parseBf2Raw (j : Json) : Except String Bf2Raw :=
  match j with
  | .obj kvs =>
    match decodeOpt Json.asVersion05 (findKey kvs "version") with
    | .error e => .error e
    | .ok version =>
      match decodeReq Json.asLayout3
          (findAliased kvs "bioformats2raw.layout" "bioformats2raw_layout") with
      | .error e => .error e
      | .ok layout => .ok ⟨version, layout⟩
  | _ => .error "expected bf2raw object"

/-- A `Series` document (`OME/zarr.json` inside a bf2raw collection). -/
structure Series where
  version : Option String
  series : List String
  deriving DecidableEq

/-- Wire validity of a `Series`. -/
def Series.wireValid (s : Series) : Bool :=
  (match s.version with
   | some v => v == "0.5"
   | none => true) && 1 ≤ s.series.length

/-- Parse a `Series`. -/
def parseSeries (j : Json) : Except String Series :=
  match j with
  | .obj kvs =>
    match decodeOpt Json.asVersion05 (findKey kvs "version") with
    | .error e => .error e
    | .ok version =>
      match decodeReq Json.asStrList1 (findKey kvs "series") with
      | .error e => .error e
      | .ok series => .ok ⟨version, series⟩
  | _ => .error "expected series object"

/-- Parse a list with the `UniqueList` (pydantic value equality, expressed
through a canonicalization map) and `MinLen(1)` annotations. -/
def parseUniqueList1 {α β : Type} [DecidableEq β] (canon : α → β)
    (p : Json → Except String α) : Json → Except String (List α)
  | .arr xs =>
    match parseListWith p xs with
    | .error e => .error e
    | .ok l =>
      if l.length < 1 then .error "list is too short"
      else if (l.map canon).Nodup then .ok l
      else .error "items are not unique"
  | _ => .error "expected array"

/-- Parse a string matching `^[A-Za-z0-9]+$`. -/
def Json.asAlnum : Json → Except String String
  | .str s => if alnumName s then .ok s else .error "string does not match pattern"
  | _ => .error "expected string"

/-- Parse a string matching `^[A-Za-z0-9]+/[A-Za-z0-9]+$`. -/
def Json.asWellPath : Json → Except String String
  | .str s =>
    if plateWellPathValid s then .ok s else .error "string does not match pattern"
  | _ => .error "expected string"

/-- Parse a `PositiveInt`. -/
def Json.asPosInt (j : Json) : Except String ℕ :=
  match Json.asNat j with
  | .error e => .error e
  | .ok n => if 1 ≤ n then .ok n else .error "expected positive integer"

/-- Parse a `Column`. -/
def parseColumn (j : Json) : Except String Column :=
  match j with
  | .obj kvs =>
    match decodeReq Json.asAlnum (findKey kvs "name") with
    | .error e => .error e
    | .ok name => .ok ⟨name⟩
  | _ => .error "expected column object"

/-- Parse a `Row`. -/
def parseRow (j : Json) : Except String Row :=
  match j with
  | .obj kvs =>
    match decodeReq Json.asAlnum (findKey kvs "name") with
    | .error e => .error e
    | .ok name => .ok ⟨name⟩
  | _ => .error "expected row object"

/-- Parse a `PlateWell`. -/
def parsePlateWell (j : Json) : Except String PlateWell :=
  match j with
  | .obj kvs =>
    match decodeReq Json.asWellPath (findKey kvs "path") with
    | .error e => .error e
    | .ok path =>
      match decodeReq Json.asNat (findKey kvs "rowIndex") with
      | .error e => .error e
      | .ok rowIndex =>
        match decodeReq Json.asNat (findKey kvs "columnIndex") with
        | .error e => .error e
        | .ok columnIndex => .ok ⟨path, rowIndex, columnIndex⟩
  | _ => .error "expected well object"

/-- Parse an `Acquisition`. -/
def parseAcquisition (j : Json) : Except String Acquisition :=
  match j with
  | .obj kvs =>
    match decodeReq Json.asNat (findKey kvs "id") with
    | .error e => .error e
    | .ok i =>
      match decodeOptNull Json.asPosInt (findKey kvs "maximumfieldcount") with
      | .error e => .error e
      | .ok mfc =>
        match decodeOptNull Json.asStr (findKey kvs "name") with
        | .error e => .error e
        | .ok name =>
          match decodeOptNull Json.asStr (findKey kvs "description") with
          | .error e => .error e
          | .ok description =>
            match decodeOptNull Json.asNat (findKey kvs "starttime") with
            | .error e => .error e
            | .ok starttime =>
              match decodeOptNull Json.asNat (findKey kvs "endtime") with
              | .error e => .error e
              | .ok endtime => .ok ⟨i, mfc, name, description, starttime, endtime⟩
  | _ => .error "expected acquisition object"

/-- Parse a `PlateDef`: the annotated fields, then the
`_validate_well_indices` model validator. -/
def parsePlateDef (j : Json) : Except String PlateDef :=
  match j with
  | .obj kvs =>
    match decodeReq (parseUniqueList1 id parseColumn) (findKey kvs "columns") with
    | .error e => .error e
    | .ok columns =>
      match decodeReq (parseUniqueList1 id parseRow) (findKey kvs "rows") with
      | .error e => .error e
      | .ok rows =>
        match decodeReq (parseUniqueList1 id parsePlateWell) (findKey kvs "wells") with
        | .error e => .error e
        | .ok wells =>
          match decodeOptNull (fun j =>
              match j with
              | .arr xs => parseListWith parseAcquisition xs
              | _ => .error "expected array") (findKey kvs "acquisitions") with
          | .error e => .error e
          | .ok acquisitions =>
            match decodeOptNull Json.asPosInt (findKey kvs "field_count") with
            | .error e => .error e
            | .ok field_count =>
              match decodeOptNull Json.asStr (findKey kvs "name") with
              | .error e => .error e
              | .ok name =>
                let pd : PlateDef :=
                  ⟨columns, rows, wells, acquisitions, field_count, name⟩
                match pd.validate_well_indices with
                | .ok _ => .ok pd
                | .error e => .error e
  | _ => .error "expected plate object"

/-- A top-level `Plate` document. -/
structure Plate where
  version : Option String
  plate : PlateDef
  bioformats2raw_layout : Option (Option ℕ)
  deriving DecidableEq

/-- Wire validity of a `Plate`: valid plate definition, literal version and
layout markers. -/
def Plate.wireValid (p : Plate) : Bool :=
  (match p.version with
   | some v => v == "0.5"
   | none => true) &&
  (match p.plate.construct with
   | .ok _ => true
   | .error _ => false) &&
  (match p.bioformats2raw_layout with
   | some (some n) => n == 3
   | _ => true)

/-- Parse a `Plate`. -/
def parsePlate (j : Json) : Except String Plate :=
  match j with
  | .obj kvs =>
    match decodeOpt Json.asVersion05 (findKey kvs "version") with
    | .error e => .error e
    | .ok version =>
      match decodeReq parsePlateDef (findKey kvs "plate") with
      | .error e => .error e
      | .ok plateDef =>
        match decodeOptNull Json.asLayout3
            (findAliased kvs "bioformats2raw.layout" "bioformats2raw_layout") with
        | .error e => .error e
        | .ok layout => .ok ⟨version, plateDef, layout⟩
  | _ => .error "expected plate document"

/-- A `FieldOfView`. -/
structure FieldOfView where
  path : String
  acquisition : Option (Option ℤ)
  deriving DecidableEq

/-- Parse a `FieldOfView`. -/
def parseFieldOfView (j : Json) : Except String FieldOfView :=
  match j with
  | .obj kvs =>
    match decodeReq Json.asAlnum (findKey kvs "path") with
    | .error e => .error e
    | .ok path =>
      match decodeOptNull Json.asInt (findKey kvs "acquisition") with
      | .error e => .error e
      | .ok acquisition => .ok ⟨path, acquisition⟩
  | _ => .error "expected field-of-view object"

/-- Canonical form of a `FieldOfView` under pydantic `__eq__`. -/
def FieldOfView.canon (f : FieldOfView) : FieldOfView :=
  ⟨f.path, some f.acquisition.join⟩

/-- A `WellDef`: the fields of view of one well. -/
structure WellDef where
  images : List FieldOfView
  deriving DecidableEq

/-- Wire validity of a `WellDef` (`UniqueList`, `MinLen(1)`, path pattern). -/
def WellDef.wireValid (w : WellDef) : Bool :=
  w.images.all (fun f => alnumName f.path) && 1 ≤ w.images.length &&
    decide (w.images.map FieldOfView.canon).Nodup

/-- Parse a `WellDef`. -/
def parseWellDef (j : Json) : Except String WellDef :=
  match j with
  | .obj kvs =>
    match decodeReq (parseUniqueList1 FieldOfView.canon parseFieldOfView)
        (findKey kvs "images") with
    | .error e => .error e
    | .ok images => .ok ⟨images⟩
  | _ => .error "expected well-def object"

/-- A top-level `Well` document. -/
structure Well where
  version : Option String
  well : WellDef
  deriving DecidableEq

/-- Wire validity of a `Well`. -/
def Well.wireValid (w : Well) : Bool :=
  (match w.version with
   | some v => v == "0.5"
   | none => true) && w.well.wireValid

/-- Parse a `Well`. -/
def parseWell (j : Json) : Except String Well :=
  match j with
  | .obj kvs =>
    match decodeOpt Json.asVersion05 (findKey kvs "version") with
    | .error e => .error e
    | .ok version =>
      match decodeReq parseWellDef (findKey kvs "well") with
      | .error e => .error e
      | .ok wd => .ok ⟨version, wd⟩
  | _ => .error "expected well document"

/-- The `OMEMetadata` union: anything that can live under the `"ome"` key of
a v0.5 `zarr.json`. -/
inductive OMEMetadata where
  | labelImage (v : LabelImage)
  | image (v : Image)
  | plate (v : Plate)
  | bf2raw (v : Bf2Raw)
  | well (v : Well)
  | labelsGroup (v : LabelsGroup)
  | series (v : Series)
  deriving DecidableEq

/-- `_discriminate_ome_v05_metadata`, dict branch: inspect the key set in
priority order (note the `bioformats2raw.layout` OR `bioformats2raw_layout`
test). -/
def discriminateOMEv05 (kvs : List (String × Json)) : Option String :=
  if (findKey kvs "image-label").isSome then some "label-image"
  else if (findKey kvs "multiscales").isSome then some "image"
  else if (findKey kvs "plate").isSome then some "plate"
  else if (findKey kvs "bioformats2raw.layout").isSome
      || (findKey kvs "bioformats2raw_layout").isSome then some "bf2raw"
  else if (findKey kvs "well").isSome then some "well"
  else if (findKey kvs "labels").isSome then some "labels-group"
  else if (findKey kvs "series").isSome then some "series"
  else none

/-- Parse the tagged union: discriminate, then validate against the chosen
model; a missing tag is a validation error. -/
def parseOMEMetadata (j : Json) : Except String OMEMetadata :=
  match j with
  | .obj kvs =>
    match discriminateOMEv05 kvs with
    | some "label-image" => (parseLabelImage j).map OMEMetadata.labelImage
    | some "image" => (parseImage j).map OMEMetadata.image
    | some "plate" => (parsePlate j).map OMEMetadata.plate
    | some "bf2raw" => (parseBf2Raw j).map OMEMetadata.bf2raw
    | some "well" => (parseWell j).map OMEMetadata.well
    | some "labels-group" => (parseLabelsGroup j).map OMEMetadata.labelsGroup
    | some "series" => (parseSeries j).map OMEMetadata.series
    | _ => .error "Unable to extract tag"
  | _ => .error "expected object"

/-- Wire validity of a union member. -/
def OMEMetadata.wireValid : OMEMetadata → Bool
  | .labelImage v => v.wireValid
  | .image v => v.wireValid
  | .plate v => v.wireValid
  | .bf2raw v => v.wireValid
  | .well v => v.wireValid
  | .labelsGroup v => v.wireValid
  | .series v => v.wireValid

/-- The `attributes` field of a v0.5 `zarr.json`. -/
structure OMEAttributes where
  ome : OMEMetadata
  deriving DecidableEq

/-- A v0.5 `OMEZarrGroupJSON` document.  `uri` is declared on
`ZarrGroupModel` with `exclude=True`: it is accepted on validation but never
serialized. -/
structure OMEZarrGroupJSON where
  uri : Option (Option String)
  zarr_format : Option ℕ
  node_type : Option String
  attributes : OMEAttributes
  deriving DecidableEq

/-- Wire validity of the envelope (the `uri` field is unconstrained). -/
def OMEZarrGroupJSON.wireValid (d : OMEZarrGroupJSON) : Bool :=
  (match d.zarr_format with
   | some n => n == 3
   | none => true) &&
  (match d.node_type with
   | some s => s == "group"
   | none => true) &&
  d.attributes.ome.wireValid

/-- The discriminator keys listed by the specification. -/
def claimDiscriminatorKeys : List String :=
  ["image-label", "multiscales", "plate", "bioformats2raw.layout", "well",
   "labels", "series"]

/-- The discriminator exactly as the specification words it (claim side,
for comparison): only the dotted `bioformats2raw.layout` key selects the
bf2raw variant. -/
def claimDiscriminate (kvs : List (String × Json)) : Option String :=
  if (findKey kvs "image-label").isSome then some "label-image"
  else if (findKey kvs "multiscales").isSome then some "image"
  else if (findKey kvs "plate").isSome then some "plate"
  else if (findKey kvs "bioformats2raw.layout").isSome then some "bf2raw"
  else if (findKey kvs "well").isSome then some "well"
  else if (findKey kvs "labels").isSome then some "labels-group"
  else if (findKey kvs "series").isSome then some "series"
  else none

/-- C3 counterexample: `{"bioformats2raw_layout": 3}` contains none of the
seven keys the claim lists, so by the claim it must fail parsing — yet the
code's discriminator also accepts the underscored Python field name and the
document parses as a `Bf2Raw`. -/
theorem ome_v05_underscore_layout_key_accepted :
    (∀ k ∈ claimDiscriminatorKeys,
        findKey [("bioformats2raw_layout", Json.num 3)] k = none) ∧
      parseOMEMetadata (Json.obj [("bioformats2raw_layout", Json.num 3)])
        = .ok (OMEMetadata.bf2raw ⟨none, 3⟩) :=
  ⟨by decide, rfl⟩

/-- C3 (amended): on a v0.5 metadata object the variant is decided
structurally by the key set in the fixed priority order, with the bf2raw
variant selected by the dotted wire alias OR the underscored field name;
when the underscored key is absent this agrees with the claimed seven-key
discriminator, and an object assigned no tag fails parsing with the
unable-to-extract-tag error. -/
theorem ome_v05_discrimination (kvs : List (String × Json)) :
    (parseOMEMetadata (.obj kvs) =
      if (findKey kvs "image-label").isSome then
        (parseLabelImage (.obj kvs)).map OMEMetadata.labelImage
      else if (findKey kvs "multiscales").isSome then
        (parseImage (.obj kvs)).map OMEMetadata.image
      else if (findKey kvs "plate").isSome then
        (parsePlate (.obj kvs)).map OMEMetadata.plate
      else if ((findKey kvs "bioformats2raw.layout").isSome
          || (findKey kvs "bioformats2raw_layout").isSome) then
        (parseBf2Raw (.obj kvs)).map OMEMetadata.bf2raw
      else if (findKey kvs "well").isSome then
        (parseWell (.obj kvs)).map OMEMetadata.well
      else if (findKey kvs "labels").isSome then
        (parseLabelsGroup (.obj kvs)).map OMEMetadata.labelsGroup
      else if (findKey kvs "series").isSome then
        (parseSeries (.obj kvs)).map OMEMetadata.series
      else .error "Unable to extract tag") ∧
    ((findKey kvs "bioformats2raw_layout").isSome = false →
      discriminateOMEv05 kvs = claimDiscriminate kvs) ∧
    (discriminateOMEv05 kvs = none →
      parseOMEMetadata (.obj kvs) = .error "Unable to extract tag") := by
  refine ⟨?_, ?_, ?_⟩
  · simp only [parseOMEMetadata, discriminateOMEv05]
    split_ifs <;> rfl
  · intro h
    simp only [discriminateOMEv05, claimDiscriminate, h, Bool.or_false]
  · intro h
    simp only [parseOMEMetadata, h]

theorem ome_v05_discrimination_witness :
    discriminateOMEv05 [("series", Json.arr [Json.str "0"])]
        = claimDiscriminate [("series", Json.arr [Json.str "0"])] ∧
      parseOMEMetadata (Json.obj [("name", Json.str "x")])
        = .error "Unable to extract tag" :=
  ⟨(ome_v05_discrimination [("series", Json.arr [Json.str "0"])]).2.1 rfl,
   (ome_v05_discrimination [("name", Json.str "x")]).2.2 rfl⟩

namespace V04

/-- `v04.Multiscale`.  Same fields as the v0.5 one plus
`version: Literal["0.4"] = "0.4"` (declared between `coordinateTransformations`
and `type`). -/
structure Multiscale where
  name : Option (Option String)
  axes : List Axis
  datasets : List Dataset
  coordinateTransformations : Option (Option (List Transform))
  version : Option String
  type : Option (Option String)
  metadata : Option (Option Json)
  deriving DecidableEq

/-- The effective global transformation list (empty when unset or null). -/
def Multiscale.globalTransforms (m : Multiscale) : List Transform :=
  match m.coordinateTransformations with
  | some (some l) => l
  | _ => []

/-- The `CoordinateTransformsList` field validators on the global list. -/
def Multiscale.globalTransformsValid (m : Multiscale) : Bool :=
  match m.coordinateTransformations with
  | some (some l) => transformsListValid l
  | _ => true

/-- `v04.Multiscale._check_ndim`: every per-dataset and every global
transformation has `ndim` equal to the number of axes.  (The v0.4 model has
no spatial-scale ordering check.) -/
def Multiscale.check_ndim (m : Multiscale) : Bool :=
  m.datasets.all (fun ds =>
    ds.coordinateTransformations.all (fun t => t.ndim == m.axes.length)) &&
  m.globalTransforms.all (fun t => t.ndim == m.axes.length)

/-- Construction of a `v04.Multiscale` succeeds iff the shared field
validators and `_check_ndim` pass. -/
def Multiscale.construct_valid (m : Multiscale) : Bool :=
  axesListValid m.axes && datasetsListValid m.datasets &&
    m.globalTransformsValid && m.check_ndim

/-- Canonical form of a `v04.Multiscale` under pydantic `__eq__` (`version`
defaults to `"0.4"`). -/
def Multiscale.canon (m : Multiscale) : Multiscale :=
  ⟨some m.name.join, m.axes.map Axis.canon, m.datasets.map Dataset.canon,
   some (m.coordinateTransformations.join.map (List.map Transform.canon)),
   some (m.version.getD "0.4"),
   some m.type.join, some (m.metadata.join.map Json.canon)⟩

/-- Wire validity of a `v04.Multiscale`. -/
def Multiscale.wireValid (m : Multiscale) : Bool :=
  m.construct_valid &&
    (match m.version with
     | some v => v == "0.4"
     | none => true) &&
    (match m.metadata with
     | some (some j) => j.isObjB
     | _ => true)

/-- Parse the `version` literal `"0.4"`. -/
def Json.asVersion04 : Json → Except String String
  | .str "0.4" => .ok "0.4"
  | _ => .error "expected version 0.4"

/-- Parse a `v04.Multiscale`: extract the fields, then run the construction
validators. -/
def parseMultiscale (j : Json) : Except String Multiscale :=
  match j with
  | .obj kvs =>
    match decodeOptNull Json.asStr (findKey kvs "name") with
    | .error e => .error e
    | .ok name =>
      match decodeReq (fun j =>
          match j with
          | .arr xs => parseListWith parseAxis xs
          | _ => .error "expected array") (findKey kvs "axes") with
      | .error e => .error e
      | .ok axes =>
        match decodeReq (fun j =>
            match j with
            | .arr xs => parseListWith parseDataset xs
            | _ => .error "expected array") (findKey kvs "datasets") with
        | .error e => .error e
        | .ok datasets =>
          match decodeOptNull (fun j =>
              match j with
              | .arr xs => parseListWith parseTransform xs
              | _ => .error "expected array")
              (findKey kvs "coordinateTransformations") with
          | .error e => .error e
          | .ok cts =>
            match decodeOpt Json.asVersion04 (findKey kvs "version") with
            | .error e => .error e
            | .ok version =>
              match decodeOptNull Json.asStr (findKey kvs "type") with
              | .error e => .error e
              | .ok ty =>
                match decodeOptNull Json.asDict (findKey kvs "metadata") with
                | .error e => .error e
                | .ok metadata =>
                  let m : Multiscale :=
                    ⟨name, axes, datasets, cts, version, ty, metadata⟩
                  if m.construct_valid then .ok m
                  else .error "invalid multiscale"
  | _ => .error "expected multiscale object"

/-- `v04.Image` (a `ZarrGroupModel`: it carries the excluded `uri` field). -/
structure Image where
  uri : Option (Option String)
  multiscales : List Multiscale
  omero : Option (Option Omero)
  deriving DecidableEq

/-- Wire validity of a `v04.Image` (the `uri` field is unconstrained). -/
def Image.wireValid (i : Image) : Bool :=
  (i.multiscales.all Multiscale.wireValid && 1 ≤ i.multiscales.length &&
    decide (i.multiscales.map Multiscale.canon).Nodup) &&
  (match i.omero with
   | some (some o) => o.wireValid
   | _ => true)

/-- Parse the v0.4 `multiscales` list (`UniqueList` + `MinLen(1)`). -/
def parseMultiscalesList (j : Json) : Except String (List Multiscale) :=
  match j with
  | .arr xs =>
    match parseListWith parseMultiscale xs with
    | .error e => .error e
    | .ok l =>
      if l.length < 1 then .error "multiscales: list is too short"
      else if (l.map Multiscale.canon).Nodup then .ok l
      else .error "multiscales: items are not unique"
  | _ => .error "expected array"

/-- Parse a `v04.Image`. -/
def parseImage (j : Json) : Except String Image :=
  match j with
  | .obj kvs =>
    match decodeOptNull Json.asStr (findKey kvs "uri") with
    | .error e => .error e
    | .ok uri =>
      match decodeReq parseMultiscalesList (findKey kvs "multiscales") with
      | .error e => .error e
      | .ok multiscales =>
        match decodeOptNull parseOmero (findKey kvs "omero") with
        | .error e => .error e
        | .ok omero => .ok ⟨uri, multiscales, omero⟩
  | _ => .error "expected image object"

/-- `v04.ImageLabel`: like the v0.5 one, except `version` is the
non-nullable literal `"0.4"` with a default, declared last. -/
structure ImageLabel where
  colors : Option (Option (List LabelColor))
  properties : Option (Option (List LabelProperty))
  source : Option (Option LabelSource)
  version : Option String
  deriving DecidableEq

/-- Wire validity of a `v04.ImageLabel`. -/
def ImageLabel.wireValid (il : ImageLabel) : Bool :=
  (match il.colors with
   | some (some l) =>
     l.all LabelColor.fieldsValid && 1 ≤ l.length &&
       decide (l.map LabelColor.canon).Nodup
   | _ => true) &&
  (match il.properties with
   | some (some l) => 1 ≤ l.length && decide l.Nodup
   | _ => true) &&
  (match il.version with
   | some v => v == "0.4"
   | none => true)

/-- Parse a `v04.ImageLabel`. -/
def parseImageLabel (j : Json) : Except String ImageLabel :=
  match j with
  | .obj kvs =>
    match decodeOptNull parseColorsList (findKey kvs "colors") with
    | .error e => .error e
    | .ok colors =>
      match decodeOptNull parsePropsList (findKey kvs "properties") with
      | .error e => .error e
      | .ok properties =>
        match decodeOptNull parseLabelSource (findKey kvs "source") with
        | .error e => .error e
        | .ok source =>
          match decodeOpt Json.asVersion04 (findKey kvs "version") with
          | .error e => .error e
          | .ok version => .ok ⟨colors, properties, source, version⟩
  | _ => .error "expected image-label object"

/-- `v04.LabelImage`: a `v04.Image` plus the required `image_label` field
(wire alias `image-label`). -/
structure LabelImage where
  uri : Option (Option String)
  multiscales : List Multiscale
  omero : Option (Option Omero)
  image_label : ImageLabel
  deriving DecidableEq

/-- Wire validity of a `v04.LabelImage`. -/
def LabelImage.wireValid (li : LabelImage) : Bool :=
  (li.multiscales.all Multiscale.wireValid && 1 ≤ li.multiscales.length &&
    decide (li.multiscales.map Multiscale.canon).Nodup) &&
  (match li.omero with
   | some (some o) => o.wireValid
   | _ => true) &&
  li.image_label.wireValid

/-- Parse a `v04.LabelImage`. -/
def parseLabelImage (j : Json) : Except String LabelImage :=
  match j with
  | .obj kvs =>
    match decodeOptNull Json.asStr (findKey kvs "uri") with
    | .error e => .error e
    | .ok uri =>
      match decodeReq parseMultiscalesList (findKey kvs "multiscales") with
      | .error e => .error e
      | .ok multiscales =>
        match decodeOptNull parseOmero (findKey kvs "omero") with
        | .error e => .error e
        | .ok omero =>
          match decodeReq parseImageLabel
              (findAliased kvs "image-label" "image_label") with
          | .error e => .error e
          | .ok image_label => .ok ⟨uri, multiscales, omero, image_label⟩
  | _ => .error "expected label-image object"

/-- `v04.LabelsGroup`: just the list of label paths (a `_BaseModel`: no
`uri`, no `version`). -/
structure LabelsGroup where
  labels : List String
  deriving DecidableEq

/-- Wire validity of a `v04.LabelsGroup` (`MinLen(1)`). -/
def LabelsGroup.wireValid (g : LabelsGroup) : Bool := 1 ≤ g.labels.length

/-- Parse a `v04.LabelsGroup`. -/
def parseLabelsGroup (j : Json) : Except String LabelsGroup :=
  match j with
  | .obj kvs =>
    match decodeReq Json.asStrList1 (findKey kvs "labels") with
    | .error e => .error e
    | .ok labels => .ok ⟨labels⟩
  | _ => .error "expected labels object"

/-- `v04.Bf2Raw` (a `ZarrGroupModel`): just the layout marker. -/
structure Bf2Raw where
  uri : Option (Option String)
  bioformats2raw_layout : ℕ
  deriving DecidableEq

/-- Wire validity of a `v04.Bf2Raw`. -/
def Bf2Raw.wireValid (b : Bf2Raw) : Bool := b.bioformats2raw_layout == 3

/-- Parse a `v04.Bf2Raw`. -/
def parseBf2Raw (j : Json) : Except String Bf2Raw :=
  match j with
  | .obj kvs =>
    match decodeOptNull Json.asStr (findKey kvs "uri") with
    | .error e => .error e
    | .ok uri =>
      match decodeReq Json.asLayout3
          (findAliased kvs "bioformats2raw.layout" "bioformats2raw_layout") with
      | .error e => .error e
      | .ok layout => .ok ⟨uri, layout⟩
  | _ => .error "expected bf2raw object"

/-- `v04.Series` (a `ZarrGroupModel`): just the series list. -/
structure Series where
  uri : Option (Option String)
  series : List String
  deriving DecidableEq

/-- Wire validity of a `v04.Series` (`MinLen(1)`). -/
def Series.wireValid (s : Series) : Bool := 1 ≤ s.series.length

/-- Parse a `v04.Series`. -/
def parseSeries (j : Json) : Except String Series :=
  match j with
  | .obj kvs =>
    match decodeOptNull Json.asStr (findKey kvs "uri") with
    | .error e => .error e
    | .ok uri =>
      match decodeReq Json.asStrList1 (findKey kvs "series") with
      | .error e => .error e
      | .ok paths => .ok ⟨uri, paths⟩
  | _ => .error "expected series object"

/-- `v04.PlateDef`: the v0.5 fields plus `version: Literal["0.4"] = "0.4"`
declared last. -/
structure PlateDef where
  columns : List Column
  rows : List Row
  wells : List PlateWell
  acquisitions : Option (Option (List Acquisition))
  field_count : Option (Option ℕ)
  name : Option (Option String)
  version : Option String
  deriving DecidableEq

/-- Per-field validation of a `v04.PlateDef` (same checks as v0.5). -/
def PlateDef.fieldsValid (pd : PlateDef) : Bool :=
  pd.columns.all (fun c => alnumName c.name) && decide pd.columns.Nodup &&
    1 ≤ pd.columns.length &&
  (pd.rows.all (fun r => alnumName r.name) && decide pd.rows.Nodup &&
    1 ≤ pd.rows.length) &&
  (pd.wells.all (fun w => plateWellPathValid w.path) && decide pd.wells.Nodup &&
    1 ≤ pd.wells.length) &&
  (match pd.acquisitions with
   | some (some l) => l.all Acquisition.fieldsValid
   | _ => true) &&
  (match pd.field_count with
   | some (some n) => 1 ≤ n
   | _ => true)

/-- `v04.PlateDef._validate_well_indices` (same loop and messages). -/
def PlateDef.validate_well_indices (pd : PlateDef) : Except String Unit :=
  validate_well_indices_loop pd.rows.length pd.columns.length pd.wells

/-- `v04.PlateDef` construction. -/
def PlateDef.construct (pd : PlateDef) : Except String Unit :=
  if pd.fieldsValid then pd.validate_well_indices
  else Except.error "field validation failed"

/-- Wire validity of a `v04.PlateDef`. -/
def PlateDef.wireValid (pd : PlateDef) : Bool :=
  (match pd.construct with
   | .ok _ => true
   | .error _ => false) &&
  (match pd.version with
   | some v => v == "0.4"
   | none => true)

/-- Parse a `v04.PlateDef`. -/
def parsePlateDef (j : Json) : Except String PlateDef :=
  match j with
  | .obj kvs =>
    match decodeReq (parseUniqueList1 id parseColumn) (findKey kvs "columns") with
    | .error e => .error e
    | .ok columns =>
      match decodeReq (parseUniqueList1 id parseRow) (findKey kvs "rows") with
      | .error e => .error e
      | .ok rows =>
        match decodeReq (parseUniqueList1 id parsePlateWell)
            (findKey kvs "wells") with
        | .error e => .error e
        | .ok wells =>
          match decodeOptNull (fun j =>
              match j with
              | .arr xs => parseListWith parseAcquisition xs
              | _ => .error "expected array") (findKey kvs "acquisitions") with
          | .error e => .error e
          | .ok acquisitions =>
            match decodeOptNull Json.asPosInt (findKey kvs "field_count") with
            | .error e => .error e
            | .ok field_count =>
              match decodeOptNull Json.asStr (findKey kvs "name") with
              | .error e => .error e
              | .ok name =>
                match decodeOpt Json.asVersion04 (findKey kvs "version") with
                | .error e => .error e
                | .ok version =>
                  let pd : PlateDef :=
                    ⟨columns, rows, wells, acquisitions, field_count, name,
                     version⟩
                  match pd.validate_well_indices with
                  | .ok _ => .ok pd
                  | .error e => .error e
  | _ => .error "expected plate object"

/-- `v04.Plate` (a `ZarrGroupModel`). -/
structure Plate where
  uri : Option (Option String)
  plate : PlateDef
  deriving DecidableEq

/-- Wire validity of a `v04.Plate`. -/
def Plate.wireValid (p : Plate) : Bool := p.plate.wireValid

/-- Parse a `v04.Plate`. -/
def parsePlate (j : Json) : Except String Plate :=
  match j with
  | .obj kvs =>
    match decodeOptNull Json.asStr (findKey kvs "uri") with
    | .error e => .error e
    | .ok uri =>
      match decodeReq parsePlateDef (findKey kvs "plate") with
      | .error e => .error e
      | .ok pd => .ok ⟨uri, pd⟩
  | _ => .error "expected plate document"

/-- The relaxed v0.4 field-of-view path pattern `^[A-Za-z0-9._-]+$` (absent
the opt-in environment variables, the strict branch is skipped and the
risky-character branch only warns). -/
def relaxedFOVName (s : String) : Bool :=
  !s.data.isEmpty &&
    s.data.all (fun c => c.isAlphanum || c == '.' || c == '_' || c == '-')

/-- Parse a v0.4 field-of-view path (`RelaxedFOVPathName`). -/
def Json.asRelaxedFOV : Json → Except String String
  | .str s =>
    if relaxedFOVName s then .ok s else .error "string does not match pattern"
  | _ => .error "expected string"

/-- Parse a `v04.FieldOfView` (same fields as v0.5, relaxed path pattern). -/
def parseFieldOfView (j : Json) : Except String FieldOfView :=
  match j with
  | .obj kvs =>
    match decodeReq Json.asRelaxedFOV (findKey kvs "path") with
    | .error e => .error e
    | .ok path =>
      match decodeOptNull Json.asInt (findKey kvs "acquisition") with
      | .error e => .error e
      | .ok acquisition => .ok ⟨path, acquisition⟩
  | _ => .error "expected field-of-view object"

/-- `v04.WellDef`: the v0.5 fields plus `version: Literal["0.4"] = "0.4"`. -/
structure WellDef where
  images : List FieldOfView
  version : Option String
  deriving DecidableEq

/-- Wire validity of a `v04.WellDef`. -/
def WellDef.wireValid (w : WellDef) : Bool :=
  w.images.all (fun f => relaxedFOVName f.path) && 1 ≤ w.images.length &&
    decide (w.images.map FieldOfView.canon).Nodup &&
    (match w.version with
     | some v => v == "0.4"
     | none => true)

/-- Parse a `v04.WellDef`. -/
def parseWellDef (j : Json) : Except String WellDef :=
  match j with
  | .obj kvs =>
    match decodeReq (parseUniqueList1 FieldOfView.canon parseFieldOfView)
        (findKey kvs "images") with
    | .error e => .error e
    | .ok images =>
      match decodeOpt Json.asVersion04 (findKey kvs "version") with
      | .error e => .error e
      | .ok version => .ok ⟨images, version⟩
  | _ => .error "expected well-def object"

/-- `v04.Well` (a `ZarrGroupModel`). -/
structure Well where
  uri : Option (Option String)
  well : WellDef
  deriving DecidableEq

/-- Wire validity of a `v04.Well`. -/
def Well.wireValid (w : Well) : Bool := w.well.wireValid

/-- Parse a `v04.Well`. -/
def parseWell (j : Json) : Except String Well :=
  match j with
  | .obj kvs =>
    match decodeOptNull Json.asStr (findKey kvs "uri") with
    | .error e => .error e
    | .ok uri =>
      match decodeReq parseWellDef (findKey kvs "well") with
      | .error e => .error e
      | .ok wd => .ok ⟨uri, wd⟩
  | _ => .error "expected well document"

/-- The `v04.OMEZarrGroupJSON` discriminated union: a whole `.zattrs`
document is one of these, tagged by its top-level key set. -/
inductive OMEZarrGroupJSON where
  | labelImage (v : LabelImage)
  | image (v : Image)
  | plate (v : Plate)
  | bf2raw (v : Bf2Raw)
  | well (v : Well)
  | labelsGroup (v : LabelsGroup)
  | series (v : Series)
  deriving DecidableEq

/-- Wire validity of a v0.4 document. -/
def OMEZarrGroupJSON.wireValid : OMEZarrGroupJSON → Bool
  | .labelImage v => v.wireValid
  | .image v => v.wireValid
  | .plate v => v.wireValid
  | .bf2raw v => v.wireValid
  | .well v => v.wireValid
  | .labelsGroup v => v.wireValid
  | .series v => v.wireValid

end V04

/-! ## The `AnyOME` union (`src/yaozarrs/_validate.py`)

`validate_ome_json` validates against
`AnyOME = v04.OMEZarrGroupJSON | v05.OMEZarrGroupJSON | v05.OMEMetadata |
v05.OMEAttributes`.  On the plain-typed JSON these models serialize, each
member either validates strictly or fails, so pydantic's smart union
resolves to the leftmost member that validates; `parseAnyOME` tries the
members in declaration order. -/

/-- A document of the `AnyOME` union. -/
inductive AnyOME where
  | v04 (d : V04.OMEZarrGroupJSON)
  | v05Group (d : OMEZarrGroupJSON)
  | v05Meta (m : OMEMetadata)
  | v05Attrs (a : OMEAttributes)
  deriving DecidableEq

/-- Wire validity of an `AnyOME` document. -/
def AnyOME.wireValid : AnyOME → Bool
  | .v04 d => d.wireValid
  | .v05Group d => d.wireValid
  | .v05Meta m => m.wireValid
  | .v05Attrs a => a.ome.wireValid

end Yaozarrs
